import Mathlib

/-!
A shallow embedding of the urdfix URDF engine (src/utils/parser.rs,
src/utils/processor.rs, src/utils/modifier.rs) together with proofs about it.

Modelling conventions:
* XML text is modelled at the quick_xml event level: a document is a
  `List XmlEvent` (Start / Empty / End / Text).  The quick_xml reader with
  `trim_text(true)` and the quick_xml writer are assumed to round-trip an
  event list faithfully (indentation produced by the writer is whitespace
  text, which the reader trims and every parsing loop ignores); comments,
  declarations, CData and processing instructions behave exactly like text
  events in every loop of the source and are folded into `XmlEvent.text`.
* `f64` is modelled by `F64`: an exact rational for finite values plus
  infinity/NaN markers.  Rounding to binary floating point is not modelled;
  no statement below depends on float precision.
* Rust's `IndexMap` is modelled by an association list (`IMap`); its
  `insert` keeps the position of an existing key and `remove` is
  `swap_remove` (the last entry is moved into the freed slot).
* `HashSet` / `HashMap` are modelled by lists used only through membership,
  matching how the source uses them.
* Character classification (`char::is_alphanumeric`, `char::is_whitespace`)
  follows the Unicode tables exactly on the Latin-1 range U+0000..U+00FF;
  codepoints above U+00FF are treated as non-alphanumeric/non-whitespace.
  Every concrete string evaluated below lies within Latin-1.
* Loops whose Rust termination is by input exhaustion are given an explicit
  fuel parameter; callers pass fuel that provably cannot run out
  (one unit per loop iteration, and every iteration consumes input).
-/

deriving instance DecidableEq for Except

namespace Urdf

/-! ## Floating point model -/

/-- Model of `f64` values as produced by `str::parse::<f64>`: an exact
rational for finite values, plus signed infinity and NaN. -/
inductive F64 where
  | finite (q : ℚ)
  | infval (neg : Bool)
  | nanval
deriving DecidableEq, Repr

instance : OfNat F64 0 := ⟨.finite 0⟩
instance : OfNat F64 1 := ⟨.finite 1⟩

/-- Rust `char::to_ascii_lowercase`. -/
def to_ascii_lowercase (c : Char) : Char :=
  if 'A' ≤ c ∧ c ≤ 'Z' then Char.ofNat (c.toNat + 32) else c

/-- Rust `char::is_ascii_digit`. -/
def is_ascii_digit (c : Char) : Bool := c.isDigit

/-- Rust `char::is_alphanumeric` (Unicode Alphabetic or Numeric).  Exact on
U+0000..U+00FF: ASCII letters and digits; the Latin-1 letters U+00AA, U+00B5,
U+00BA, U+00C0..U+00D6, U+00D8..U+00F6, U+00F8..U+00FF; the Latin-1 numeric
characters U+00B2, U+00B3, U+00B9, U+00BC..U+00BE.  Codepoints above U+00FF
are treated as non-alphanumeric (no string in this development uses them). -/
def is_alphanumeric (c : Char) : Bool :=
  c.isAlpha || c.isDigit ||
    (let n := c.toNat
     n == 0xAA || n == 0xB5 || n == 0xBA ||
     n == 0xB2 || n == 0xB3 || n == 0xB9 ||
     (0xBC ≤ n && n ≤ 0xBE) || (0xC0 ≤ n && n ≤ 0xD6) ||
     (0xD8 ≤ n && n ≤ 0xF6) || (0xF8 ≤ n && n ≤ 0xFF))

/-- Rust `char::is_whitespace` (Unicode White_Space), exact on Latin-1:
U+0009..U+000D, U+0020, U+0085, U+00A0. -/
def is_unicode_whitespace (c : Char) : Bool :=
  let n := c.toNat
  n == 0x20 || (0x09 ≤ n && n ≤ 0x0D) || n == 0x85 || n == 0xA0

/-- Digits of a decimal literal folded into a natural number. -/
def digits_to_nat (ds : List Char) : ℕ :=
  ds.foldl (fun a c => 10 * a + (c.toNat - '0'.toNat)) 0

/-- Mantissa/exponent of a decimal literal combined into a rational. -/
def decimal_value (neg : Bool) (intPart fracPart : List Char)
    (eneg : Bool) (expDigits : ℕ) : F64 :=
  let mant : ℚ := (digits_to_nat intPart : ℚ) +
    (digits_to_nat fracPart : ℚ) / (10 : ℚ) ^ fracPart.length
  let scaled : ℚ := if eneg then mant / (10 : ℚ) ^ expDigits
    else mant * (10 : ℚ) ^ expDigits
  .finite (if neg then -scaled else scaled)

/-- The decimal part of Rust `f64::from_str` (after the sign): digits,
optional point and further digits (at least one digit in total), optional
`e`/`E` exponent with its own optional sign and at least one digit. -/
def parse_decimal (neg : Bool) (cs : List Char) : Option F64 :=
  let intPart := cs.takeWhile Char.isDigit
  let rest := cs.dropWhile Char.isDigit
  let (fracPart, rest2) :=
    match rest with
    | '.' :: r => (r.takeWhile Char.isDigit, r.dropWhile Char.isDigit)
    | _ => ([], rest)
  if intPart.isEmpty ∧ fracPart.isEmpty then none
  else
    match rest2 with
    | [] => some (decimal_value neg intPart fracPart false 0)
    | 'e' :: r | 'E' :: r =>
      let (eneg, r2) :=
        match r with
        | '+' :: r2 => (false, r2)
        | '-' :: r2 => (true, r2)
        | r2 => (false, r2)
      let eds := r2.takeWhile Char.isDigit
      if eds.isEmpty ∨ ¬ (r2.dropWhile Char.isDigit).isEmpty then none
      else some (decimal_value neg intPart fracPart eneg (digits_to_nat eds))
    | _ => none

/-- Rust `str::parse::<f64>` (`f64::from_str`): optional sign, then a
case-insensitive `inf`/`infinity`/`nan`, or a decimal literal. -/
def parse_f64 (s : String) : Option F64 :=
  let cs := s.toList
  let (neg, cs) :=
    match cs with
    | '+' :: r => (false, r)
    | '-' :: r => (true, r)
    | r => (false, r)
  let lower := cs.map to_ascii_lowercase
  if lower = "inf".toList ∨ lower = "infinity".toList then some (.infval neg)
  else if lower = "nan".toList then some .nanval
  else parse_decimal neg cs

/-- Fractional digits of a rational by long division (fuel-bounded; every
value formatted in this development has a denominator dividing a power of
ten, for which 1100 digits are more than enough). -/
def frac_digits : ℕ → ℕ → ℕ → List Char
  | 0, _, _ => []
  | _ + 1, 0, _ => []
  | fuel + 1, r, d =>
    let r10 := r * 10
    Char.ofNat ('0'.toNat + r10 / d) :: frac_digits fuel (r10 % d) d

/-- Rust `Display` for `f64` (`format!` with an empty spec), on the exact
rational model: sign, integer part, and the exact fractional expansion when
nonzero. -/
def fmt_f64 : F64 → String
  | .infval true => "-inf"
  | .infval false => "inf"
  | .nanval => "NaN"
  | .finite q =>
    let sign := if q < 0 then "-" else ""
    let n := q.num.natAbs
    let d := q.den
    let ipart := n / d
    let r0 := n % d
    sign ++ toString ipart ++
      (if r0 = 0 then "" else "." ++ String.mk (frac_digits 1100 r0 d))

/-! ## IndexMap model -/

/-- Association-list model of `IndexMap<String, α>`. -/
abbrev IMap (α : Type) := List (String × α)

/-- Keys of an `IMap`, in order. -/
def IMap.keysOf {α : Type} (m : IMap α) : List String := m.map (·.1)

/-- `IndexMap::insert`: an existing key keeps its position and gets the new
value; a fresh key is appended. -/
def insertIM {α : Type} (m : IMap α) (k : String) (v : α) : IMap α :=
  if m.any (fun p => p.1 = k) then
    m.map (fun p => if p.1 = k then (k, v) else p)
  else m ++ [(k, v)]

/-- First entry with the given key (`IndexMap::get`). -/
def lookupIM {α : Type} (m : IMap α) (k : String) : Option α :=
  (m.find? (fun p => p.1 = k)).map (·.2)

/-- Split a list at the first entry whose key matches. -/
def find_split {α : Type} (k : String) :
    IMap α → Option (IMap α × (String × α) × IMap α)
  | [] => none
  | e :: es =>
    if e.1 = k then some ([], e, es)
    else (find_split k es).map (fun r => (e :: r.1, r.2.1, r.2.2))

/-- The last element moved to the front (the shape of the list left by
`swap_remove` at the removal site). -/
def rot_last {α : Type} : List α → List α
  | [] => []
  | [e] => [e]
  | e :: es =>
    match rot_last es with
    | f :: fs => f :: e :: fs
    | [] => [e]

/-- `IndexMap::remove` (an alias of `swap_remove`): the entry is removed and
the last entry of the map takes its slot. -/
def swap_removeIM {α : Type} (m : IMap α) (k : String) :
    Option (α × IMap α) :=
  (find_split k m).map (fun r => (r.2.1.2, r.1 ++ rot_last r.2.2))

/-! ## XML events and the document model -/

/-- A quick_xml event.  `text` also stands for comments, declarations,
CData and processing instructions, which every loop of the source treats
identically (the catch-all arm). -/
inductive XmlEvent where
  | start (name : String) (attrs : List (String × String))
  | emptyElem (name : String) (attrs : List (String × String))
  | endElem (name : String)
  | text (content : String)
deriving DecidableEq, Repr

/-- `UrdfParseError` (the XML and IO variants cannot arise at the event
level and are omitted). -/
inductive UrdfParseError where
  | invalidStructure (msg : String)
  | missingAttribute (name : String)
deriving DecidableEq, Repr

structure Inertia where
  ixx : F64
  ixy : F64
  ixz : F64
  iyy : F64
  iyz : F64
  izz : F64
deriving DecidableEq, Repr

/-- A whitespace-separated float triple (`[f64; 3]`). -/
abbrev Triple := F64 × F64 × F64

structure Origin where
  xyz : Triple
  rpy : Triple
deriving DecidableEq, Repr

structure Axis where
  xyz : Triple
deriving DecidableEq, Repr

structure Limit where
  lower : Option F64
  upper : Option F64
  effort : Option F64
  velocity : Option F64
deriving DecidableEq, Repr

structure Dynamics where
  damping : Option F64
  friction : Option F64
deriving DecidableEq, Repr

structure Mimic where
  joint : String
  multiplier : Option F64
  offset : Option F64
deriving DecidableEq, Repr

inductive GeometryShape where
  | box (size : Triple)
  | cylinder (radius length : F64)
  | sphere (radius : F64)
  | mesh (filename : String) (scale : Option Triple)
deriving DecidableEq, Repr

structure Geometry where
  shape : GeometryShape
deriving DecidableEq, Repr

structure Color where
  rgba : F64 × F64 × F64 × F64
deriving DecidableEq, Repr

structure Texture where
  filename : String
deriving DecidableEq, Repr

structure MaterialRef where
  name : String
deriving DecidableEq, Repr

structure Visual where
  name : Option String
  origin : Option Origin
  geometry : Option Geometry
  material : Option MaterialRef
deriving DecidableEq, Repr

structure Collision where
  name : Option String
  origin : Option Origin
  geometry : Option Geometry
deriving DecidableEq, Repr

structure Inertial where
  mass : F64
  origin : Option Origin
  inertia : Option Inertia
deriving DecidableEq, Repr

structure Link where
  name : String
  inertial : Option Inertial
  visual : List Visual
  collision : List Collision
deriving DecidableEq, Repr

structure Joint where
  name : String
  joint_type : String
  parent : String
  child : String
  origin : Option Origin
  axis : Option Axis
  limit : Option Limit
  dynamics : Option Dynamics
  mimic : Option Mimic
deriving DecidableEq, Repr

structure Material where
  name : String
  color : Option Color
  texture : Option Texture
deriving DecidableEq, Repr

structure GazeboElement where
  reference : Option String
  content : String
deriving DecidableEq, Repr

structure TransmissionElement where
  name : String
  content : String
deriving DecidableEq, Repr

structure Robot where
  name : String
  links : IMap Link
  joints : IMap Joint
  materials : IMap Material
  gazebo_elements : List GazeboElement
  transmission_elements : List TransmissionElement
deriving DecidableEq, Repr

/-- `UrdfDocument`; the regenerated text is kept as its event list. -/
structure UrdfDocument where
  robot : Robot
  raw_xml : List XmlEvent
deriving DecidableEq, Repr

/-! ## Parser (src/utils/parser.rs) -/

/-- `UrdfParser::get_required_attribute`: first attribute with the key. -/
def get_required_attribute (attrs : List (String × String)) (key : String) :
    Except UrdfParseError String :=
  match (attrs.find? (fun a => a.1 = key)).map (·.2) with
  | some v => .ok v
  | none => .error (.missingAttribute key)

/-- `UrdfParser::get_optional_attribute`. -/
def get_optional_attribute (attrs : List (String × String)) (key : String) :
    Option String :=
  (attrs.find? (fun a => a.1 = key)).map (·.2)

/-- `str::split_whitespace`, accumulator-based: maximal runs of
non-whitespace characters (the accumulator holds the current token
reversed). -/
def split_ws_aux : List Char → List Char → List (List Char)
  | acc, [] => if acc.isEmpty then [] else [acc.reverse]
  | acc, c :: cs =>
    if is_unicode_whitespace c then
      (if acc.isEmpty then [] else [acc.reverse]) ++ split_ws_aux [] cs
    else split_ws_aux (c :: acc) cs

def split_whitespace (s : String) : List String :=
  (split_ws_aux [] s.toList).map String.mk

/-- `collect::<Result<Vec<f64>, _>>` over the tokens: the values in order,
or `none` at the first unparsable token. -/
def collect_floats : List String → Option (List F64)
  | [] => some []
  | t :: ts =>
    match parse_f64 t with
    | none => none
    | some v => (collect_floats ts).map (fun vs => v :: vs)

/-- `UrdfParser::parse_three_floats`: split on whitespace, convert every
token (any failure is an `Invalid float array` error naming the input),
then require exactly three values (otherwise an arity error naming the
count). -/
def parse_three_floats (s : String) : Except UrdfParseError Triple :=
  match collect_floats (split_whitespace s) with
  | none => .error (.invalidStructure ("Invalid float array: " ++ s))
  | some parts =>
    match parts with
    | [a, b, c] => .ok (a, b, c)
    | _ => .error (.invalidStructure
        ("Expected 3 values, got " ++ toString parts.length))

/-- `UrdfParser::parse_origin_from_attributes`: `xyz` and `rpy` both
default to `"0 0 0"` when absent. -/
def parse_origin_from_attributes (attrs : List (String × String)) :
    Except UrdfParseError Origin := do
  let xyz_str := (get_optional_attribute attrs "xyz").getD "0 0 0"
  let rpy_str := (get_optional_attribute attrs "rpy").getD "0 0 0"
  let xyz ← parse_three_floats xyz_str
  let rpy ← parse_three_floats rpy_str
  return { xyz := xyz, rpy := rpy }

/-- `UrdfParser::parse_axis_from_attributes`: `xyz` defaults to `"1 0 0"`. -/
def parse_axis_from_attributes (attrs : List (String × String)) :
    Except UrdfParseError Axis := do
  let xyz ← parse_three_floats ((get_optional_attribute attrs "xyz").getD "1 0 0")
  return { xyz := xyz }

/-- `UrdfParser::parse_limit_from_attributes` (never fails; unparsable
numbers become `none` through `.ok()`). -/
def parse_limit_from_attributes (attrs : List (String × String)) : Limit :=
  { lower := (get_optional_attribute attrs "lower").bind parse_f64
    upper := (get_optional_attribute attrs "upper").bind parse_f64
    effort := (get_optional_attribute attrs "effort").bind parse_f64
    velocity := (get_optional_attribute attrs "velocity").bind parse_f64 }

/-- `UrdfParser::parse_dynamics_from_attributes`. -/
def parse_dynamics_from_attributes (attrs : List (String × String)) : Dynamics :=
  { damping := (get_optional_attribute attrs "damping").bind parse_f64
    friction := (get_optional_attribute attrs "friction").bind parse_f64 }

/-- `UrdfParser::parse_mimic_from_attributes`: `joint` is required. -/
def parse_mimic_from_attributes (attrs : List (String × String)) :
    Except UrdfParseError Mimic := do
  let j ← get_required_attribute attrs "joint"
  return { joint := j
           multiplier := (get_optional_attribute attrs "multiplier").bind parse_f64
           offset := (get_optional_attribute attrs "offset").bind parse_f64 }

/-- `UrdfParser::skip_element`: consume events until the depth counter
(starting at 1) returns to zero; end of input just stops.  Only `Start`
and `End` events change the depth. -/
def skip_element : ℕ → List XmlEvent → List XmlEvent
  | 0, es => es
  | _ + 1, [] => []
  | depth + 1, e :: es =>
    match e with
    | .start _ _ => skip_element (depth + 2) es
    | .endElem _ => skip_element depth es
    | _ => skip_element (depth + 1) es

/-- The loop of `UrdfParser::parse_link`: `inertial` / `visual` /
`collision` children are recognised by their opening tag, their own content
is skipped (`parse_inertial` / `parse_visual` / `parse_collision` all call
`skip_element` and fill in fixed values); unknown opening tags are skipped;
everything else (empty elements, text, foreign end tags) is ignored. -/
def parse_link_loop : ℕ → Link → List XmlEvent →
    Except UrdfParseError (Link × List XmlEvent)
  | 0, _, _ => .error (.invalidStructure "fuel exhausted")
  | _ + 1, _, [] => .error (.invalidStructure "Unexpected end of file")
  | fuel + 1, link, e :: es =>
    match e with
    | .start n attrs =>
      if n = "inertial" then
        parse_link_loop fuel
          { link with inertial := some { mass := .finite 1, origin := none, inertia := none } }
          (skip_element 1 es)
      else if n = "visual" then
        parse_link_loop fuel
          { link with visual := link.visual ++
              [{ name := get_optional_attribute attrs "name",
                 origin := none, geometry := none, material := none }] }
          (skip_element 1 es)
      else if n = "collision" then
        parse_link_loop fuel
          { link with collision := link.collision ++
              [{ name := get_optional_attribute attrs "name",
                 origin := none, geometry := none }] }
          (skip_element 1 es)
      else parse_link_loop fuel link (skip_element 1 es)
    | .endElem n =>
      if n = "link" then .ok (link, es) else parse_link_loop fuel link es
    | _ => parse_link_loop fuel link es

/-- The loop of `UrdfParser::parse_joint`: the recognised children are read
from attributes on either opening or empty-element tags; an unrecognised
`Start`/`Empty` child triggers the source's odd recovery (read one more
event, and skip only if that event is a `Start`). -/
def parse_joint_loop : ℕ → Joint → List XmlEvent →
    Except UrdfParseError (Joint × List XmlEvent)
  | 0, _, _ => .error (.invalidStructure "fuel exhausted")
  | _ + 1, _, [] => .error (.invalidStructure "Unexpected end of file")
  | fuel + 1, joint, e :: es =>
    match e with
    | .start n attrs | .emptyElem n attrs =>
      if n = "parent" then do
        let p ← get_required_attribute attrs "link"
        parse_joint_loop fuel { joint with parent := p } es
      else if n = "child" then do
        let c ← get_required_attribute attrs "link"
        parse_joint_loop fuel { joint with child := c } es
      else if n = "origin" then do
        let o ← parse_origin_from_attributes attrs
        parse_joint_loop fuel { joint with origin := some o } es
      else if n = "axis" then do
        let a ← parse_axis_from_attributes attrs
        parse_joint_loop fuel { joint with axis := some a } es
      else if n = "limit" then
        parse_joint_loop fuel
          { joint with limit := some (parse_limit_from_attributes attrs) } es
      else if n = "dynamics" then
        parse_joint_loop fuel
          { joint with dynamics := some (parse_dynamics_from_attributes attrs) } es
      else if n = "mimic" then do
        let m ← parse_mimic_from_attributes attrs
        parse_joint_loop fuel { joint with mimic := some m } es
      else
        match es with
        | .start _ _ :: es2 => parse_joint_loop fuel joint (skip_element 1 es2)
        | _ :: es2 => parse_joint_loop fuel joint es2
        | [] => parse_joint_loop fuel joint []
    | .endElem n =>
      if n = "joint" then .ok (joint, es) else parse_joint_loop fuel joint es
    | _ => parse_joint_loop fuel joint es

/-- `UrdfParser::parse_link` (name from the opening tag, then the loop). -/
def parse_link (fuel : ℕ) (attrs : List (String × String))
    (es : List XmlEvent) : Except UrdfParseError (Link × List XmlEvent) := do
  let name ← get_required_attribute attrs "name"
  parse_link_loop fuel { name := name, inertial := none, visual := [], collision := [] } es

/-- `UrdfParser::parse_joint` (`name` and `type` required up front). -/
def parse_joint (fuel : ℕ) (attrs : List (String × String))
    (es : List XmlEvent) : Except UrdfParseError (Joint × List XmlEvent) := do
  let name ← get_required_attribute attrs "name"
  let jt ← get_required_attribute attrs "type"
  parse_joint_loop fuel
    { name := name, joint_type := jt, parent := "", child := "",
      origin := none, axis := none, limit := none, dynamics := none, mimic := none } es

/-- `UrdfParser::parse_material`: required `name`, content skipped. -/
def parse_material (attrs : List (String × String)) (es : List XmlEvent) :
    Except UrdfParseError (Material × List XmlEvent) := do
  let name ← get_required_attribute attrs "name"
  return ({ name := name, color := none, texture := none }, skip_element 1 es)

/-- `UrdfParser::parse_gazebo`: optional `reference`, content skipped. -/
def parse_gazebo (attrs : List (String × String)) (es : List XmlEvent) :
    GazeboElement × List XmlEvent :=
  ({ reference := get_optional_attribute attrs "reference", content := "" },
    skip_element 1 es)

/-- `UrdfParser::parse_transmission`: required `name`, content skipped. -/
def parse_transmission (attrs : List (String × String)) (es : List XmlEvent) :
    Except UrdfParseError (TransmissionElement × List XmlEvent) := do
  let name ← get_required_attribute attrs "name"
  return ({ name := name, content := "" }, skip_element 1 es)

/-- The loop of `UrdfParser::parse_robot`: dispatch on **opening** tags
only (`link` / `joint` / `material` / `gazebo` / `transmission`, anything
else skipped); `End robot` finishes; empty-element and text events fall to
the catch-all arm and are silently ignored. -/
def parse_robot_loop : ℕ → Robot → List XmlEvent →
    Except UrdfParseError (Robot × List XmlEvent)
  | 0, _, _ => .error (.invalidStructure "fuel exhausted")
  | _ + 1, _, [] => .error (.invalidStructure "Unexpected end of file")
  | fuel + 1, robot, e :: es =>
    match e with
    | .start n attrs =>
      if n = "link" then do
        let (link, rest) ← parse_link fuel attrs es
        parse_robot_loop fuel
          { robot with links := insertIM robot.links link.name link } rest
      else if n = "joint" then do
        let (joint, rest) ← parse_joint fuel attrs es
        parse_robot_loop fuel
          { robot with joints := insertIM robot.joints joint.name joint } rest
      else if n = "material" then do
        let (material, rest) ← parse_material attrs es
        parse_robot_loop fuel
          { robot with materials := insertIM robot.materials material.name material } rest
      else if n = "gazebo" then
        let (gazebo, rest) := parse_gazebo attrs es
        parse_robot_loop fuel
          { robot with gazebo_elements := robot.gazebo_elements ++ [gazebo] } rest
      else if n = "transmission" then do
        let (t, rest) ← parse_transmission attrs es
        parse_robot_loop fuel
          { robot with transmission_elements := robot.transmission_elements ++ [t] } rest
      else parse_robot_loop fuel robot (skip_element 1 es)
    | .endElem n =>
      if n = "robot" then .ok (robot, es) else parse_robot_loop fuel robot es
    | _ => parse_robot_loop fuel robot es

/-- `UrdfParser::parse_robot`: required `name` on the opening tag, then the
loop starting from an empty robot. -/
def parse_robot (fuel : ℕ) (attrs : List (String × String))
    (es : List XmlEvent) : Except UrdfParseError (Robot × List XmlEvent) := do
  let name ← get_required_attribute attrs "name"
  parse_robot_loop fuel
    { name := name, links := [], joints := [], materials := [],
      gazebo_elements := [], transmission_elements := [] } es

/-- The top-level loop of `UrdfParser::parse_string`: scan for `Start
robot` events (a later robot overwrites an earlier one — last one wins);
everything else, including an empty-element `robot`, is ignored. -/
def parse_top_loop : ℕ → Option Robot → List XmlEvent →
    Except UrdfParseError (Option Robot)
  | 0, _, _ => .error (.invalidStructure "fuel exhausted")
  | _ + 1, acc, [] => .ok acc
  | fuel + 1, acc, e :: es =>
    match e with
    | .start n attrs =>
      if n = "robot" then do
        let (r, rest) ← parse_robot fuel attrs es
        parse_top_loop fuel (some r) rest
      else parse_top_loop fuel acc es
    | _ => parse_top_loop fuel acc es

/-- `UrdfParser::parse_string` on an event list.  The fuel
`es.length + 1` cannot run out: every loop iteration consumes at least one
event together with exactly one unit of fuel, and nested element parsers
are handed the already-decremented fuel with a strictly shorter event
list. -/
def parse_string (es : List XmlEvent) : Except UrdfParseError UrdfDocument := do
  match ← parse_top_loop (es.length + 1) none es with
  | some robot => return { robot := robot, raw_xml := es }
  | none => .error (.invalidStructure "No robot element found")

/-! ## Processor (src/utils/processor.rs) -/

inductive IssueSeverity where
  | error
  | warning
  | info
deriving DecidableEq, Repr

inductive IssueCategory where
  | struct
  | naming
  | physics
  | geometry
  | validation
  | style
deriving DecidableEq, Repr

structure UrdfIssue where
  severity : IssueSeverity
  category : IssueCategory
  message : String
  element_name : Option String
  suggestion : Option String
deriving DecidableEq, Repr

/-- Rust `{:?}` applied to a `Vec<String>` (no escaping is needed by any
name appearing in this development). -/
def debug_fmt_list (l : List String) : String :=
  "[" ++ String.intercalate ", " (l.map (fun s => "\"" ++ s ++ "\"")) ++ "]"

/-- `UrdfProcessor::is_valid_name` (the same code appears verbatim in
`UrdfModifier::is_valid_name`): nonempty, every character Unicode
alphanumeric or underscore, and not starting with an ASCII digit. -/
def is_valid_name (name : String) : Bool :=
  !name.isEmpty
    && name.toList.all (fun c => is_alphanumeric c || c = '_')
    && !(name.toList.head?.any is_ascii_digit)

/-- `UrdfProcessor::find_root_links` (the identical
`find_root_links_from_robot` is not duplicated): links never appearing as
any joint's child, in insertion order. -/
def find_root_links (r : Robot) : List String :=
  let child_links := r.joints.map (fun p => p.2.child)
  (IMap.keysOf r.links).filter (fun n => !child_links.contains n)

/-- `UrdfProcessor::find_orphaned_links`: links appearing in no joint's
parent or child position.  There is no special case for a single-link,
zero-joint robot. -/
def find_orphaned_links (r : Robot) : List String :=
  let connected := r.joints.flatMap (fun p => [p.2.parent, p.2.child])
  (IMap.keysOf r.links).filter (fun n => !connected.contains n)

/-- `UrdfProcessor::build_adjacency_list`, read as a lookup: the children
pushed for a given parent key, in joint insertion order. -/
def adjacency (r : Robot) (n : String) : List String :=
  r.joints.filterMap (fun p => if p.2.parent = n then some p.2.child else none)

/-- `HashSet::insert` on the list model. -/
def insert_set (x : String) (s : List String) : List String :=
  if s.contains x then s else x :: s

/-- One task of `UrdfProcessor::dfs_has_cycle`: `visit node` is the
function body (mark visited and on-stack, then walk the children);
`walk node cs` is the `for child in children` loop, which removes `node`
from the recursion stack when it finishes without finding a back edge.
Fuel is one unit per task step; the caller passes enough for the whole
traversal. -/
inductive DfsTask where
  | visit (node : String)
  | walk (node : String) (children : List String)
deriving Repr

def dfs_run (adjf : String → List String) :
    ℕ → DfsTask → List String → List String →
    Bool × List String × List String
  | 0, _, visited, rec_stack => (false, visited, rec_stack)
  | fuel + 1, .visit node, visited, rec_stack =>
    dfs_run adjf fuel (.walk node (adjf node))
      (insert_set node visited) (insert_set node rec_stack)
  | _ + 1, .walk node [], visited, rec_stack =>
    (false, visited, rec_stack.erase node)
  | fuel + 1, .walk node (c :: cs), visited, rec_stack =>
    if !visited.contains c then
      match dfs_run adjf fuel (.visit c) visited rec_stack with
      | (true, v2, rs2) => (true, v2, rs2)
      | (false, v2, rs2) => dfs_run adjf fuel (.walk node cs) v2 rs2
    else if rec_stack.contains c then (true, visited, rec_stack)
    else dfs_run adjf fuel (.walk node cs) visited rec_stack

/-- Fuel that cannot run out for `dfs_run`: at most one `visit` per
distinct node (bounded by the link count plus twice the joint count) and
one `walk` step for each child edge plus one per visit. -/
def dfs_fuel (r : Robot) : ℕ :=
  2 * r.links.length + 5 * r.joints.length + 2

/-- The loop of `UrdfProcessor::has_cycles` over the robot's links, with
`visited` and `rec_stack` shared between starts. -/
def has_cycles_go (r : Robot) : List String → List String → List String → Bool
  | [], _, _ => false
  | k :: ks, visited, rec_stack =>
    if !visited.contains k then
      match dfs_run (adjacency r) (dfs_fuel r) (.visit k) visited rec_stack with
      | (true, _, _) => true
      | (false, v2, rs2) => has_cycles_go r ks v2 rs2
    else has_cycles_go r ks visited rec_stack

/-- `UrdfProcessor::has_cycles`: depth-first search started from every
link (cycles whose nodes are reachable from no link are not seen). -/
def has_cycles (r : Robot) : Bool :=
  has_cycles_go r (IMap.keysOf r.links) [] []

/-- `UrdfProcessor::validate_kinematic_tree`: root-count error, cycle
error, orphan error, in that order; `Ok` exactly when no error string was
produced. -/
def validate_kinematic_tree (r : Robot) : Except (List String) Unit :=
  let root_links := find_root_links r
  let errors :=
    (if root_links.length ≠ 1 then
      ["Expected exactly 1 root link, found " ++ toString root_links.length ++
        ": " ++ debug_fmt_list root_links]
     else []) ++
    (if has_cycles r then ["Kinematic tree contains cycles"] else []) ++
    (let orphaned := find_orphaned_links r
     if !orphaned.isEmpty then
      ["Found orphaned links: " ++ debug_fmt_list orphaned]
     else [])
  if errors.isEmpty then .ok () else .error errors

/-- The Warning/Naming issue reported for a link name. -/
def link_naming_issue (n : String) : UrdfIssue :=
  { severity := .warning, category := .naming,
    message := "Link name \x27" ++ n ++ "\x27 doesn\x27t follow naming conventions",
    element_name := some n,
    suggestion := some "Use snake_case with descriptive names" }

/-- The Warning/Naming issue reported for a joint name. -/
def joint_naming_issue (n : String) : UrdfIssue :=
  { severity := .warning, category := .naming,
    message := "Joint name \x27" ++ n ++ "\x27 doesn\x27t follow naming conventions",
    element_name := some n,
    suggestion := some "Use snake_case with descriptive names" }

/-- `UrdfProcessor::check_naming_conventions`: a Warning/Naming issue per
link key and per joint key failing `is_valid_name`. -/
def check_naming_conventions (r : Robot) : List UrdfIssue :=
  ((IMap.keysOf r.links).filter (fun n => !is_valid_name n)).map link_naming_issue ++
  ((IMap.keysOf r.joints).filter (fun n => !is_valid_name n)).map joint_naming_issue

/-- `UrdfProcessor::check_structural_issues`: every kinematic-tree error
string becomes an Error/Structure issue. -/
def check_structural_issues (r : Robot) : List UrdfIssue :=
  match validate_kinematic_tree r with
  | .ok _ => []
  | .error errs => errs.map (fun e =>
      { severity := .error, category := .struct, message := e,
        element_name := none,
        suggestion := some "Fix kinematic tree structure" })

/-- `UrdfProcessor::check_physics_properties`. -/
def check_physics_properties (r : Robot) : List UrdfIssue :=
  r.links.filterMap (fun p =>
    if p.2.inertial.isNone ∧ (¬ p.2.visual.isEmpty ∨ ¬ p.2.collision.isEmpty) then
      some { severity := .warning, category := .physics,
             message := "Link \x27" ++ p.1 ++ "\x27 has geometry but no inertial properties",
             element_name := some p.1,
             suggestion := some "Add inertial properties for physics simulation" }
    else none)

/-- `UrdfProcessor::find_duplicate_names`: the distinct names occurring
more than once (first-occurrence order models the hash-map iteration). -/
def find_duplicate_names (names : List String) : List String :=
  names.eraseDups.filter (fun n => names.count n > 1)

/-- `UrdfProcessor::find_duplicates` (insertion order models the hash-map
iteration; a category is present only when it has duplicated names). -/
def find_duplicates (r : Robot) : List (String × List String) :=
  (if ¬ (find_duplicate_names (IMap.keysOf r.links)).isEmpty then
    [("links", find_duplicate_names (IMap.keysOf r.links))] else []) ++
  (if ¬ (find_duplicate_names (IMap.keysOf r.joints)).isEmpty then
    [("joints", find_duplicate_names (IMap.keysOf r.joints))] else []) ++
  (if ¬ (find_duplicate_names (IMap.keysOf r.materials)).isEmpty then
    [("materials", find_duplicate_names (IMap.keysOf r.materials))] else [])

/-- `UrdfProcessor::check_duplicate_elements`: an Error/Validation issue
per category listing more than one duplicated name. -/
def check_duplicate_elements (r : Robot) : List UrdfIssue :=
  (find_duplicates r).filterMap (fun p =>
    if p.2.length > 1 then
      some { severity := .error, category := .validation,
             message := "Duplicate " ++ p.1 ++ " found: " ++ debug_fmt_list p.2,
             element_name := none,
             suggestion := some "Remove or rename duplicate elements" }
    else none)

/-- The material names referenced by some visual (the contents of the
`used_materials` hash set). -/
def used_material_names (r : Robot) : List String :=
  r.links.flatMap (fun p =>
    p.2.visual.filterMap (fun v => v.material.map (·.name)))

/-- The Info/Style issue reported for an unused material. -/
def unused_material_issue (n : String) : UrdfIssue :=
  { severity := .info, category := .style,
    message := "Unused material: \x27" ++ n ++ "\x27",
    element_name := some n,
    suggestion := some "Remove unused material or add reference" }

/-- `UrdfProcessor::check_unused_materials`: an Info/Style issue per
material never referenced by a visual. -/
def check_unused_materials (r : Robot) : List UrdfIssue :=
  ((IMap.keysOf r.materials).filter
      (fun n => !(used_material_names r).contains n)).map unused_material_issue

/-- `UrdfProcessor::check_joint_limits`. -/
def check_joint_limits (r : Robot) : List UrdfIssue :=
  r.joints.filterMap (fun p =>
    if (p.2.joint_type = "revolute" ∨ p.2.joint_type = "prismatic") ∧
        p.2.limit.isNone then
      some { severity := .warning, category := .physics,
             message := "Joint \x27" ++ p.1 ++ "\x27 of type \x27" ++ p.2.joint_type ++
               "\x27 is missing limit specification",
             element_name := some p.1,
             suggestion := some "Add limit element with upper, lower, effort, and velocity" }
    else none)

/-- `UrdfProcessor::lint`: the six checks concatenated in source order. -/
def lint (r : Robot) : List UrdfIssue :=
  check_naming_conventions r ++ check_structural_issues r ++
  check_physics_properties r ++ check_duplicate_elements r ++
  check_unused_materials r ++ check_joint_limits r

/-! ## Modifier / regenerator (src/utils/modifier.rs) -/

/-- `FormatOptions` (indentation becomes whitespace text the reader trims;
none of the write paths read the other fields — they all bind `_options`). -/
structure FormatOptions where
  indent : String
  attribute_order : List String
  element_order : List String
  compact_empty_elements : Bool
  max_line_length : Option ℕ
deriving DecidableEq, Repr

def default_format_options : FormatOptions :=
  { indent := "  ",
    attribute_order := ["name", "type", "link", "joint", "xyz", "rpy"],
    element_order := ["material", "link", "joint", "gazebo", "transmission"],
    compact_empty_elements := true,
    max_line_length := some 120 }

/-- `format!` of a float triple: space-joined `Display` values. -/
def fmt_triple (t : Triple) : String :=
  fmt_f64 t.1 ++ " " ++ fmt_f64 t.2.1 ++ " " ++ fmt_f64 t.2.2

/-- `UrdfModifier::write_material`: an open/close pair when a color or
texture is present (neither is written), a self-closing tag otherwise. -/
def write_material (m : Material) : List XmlEvent :=
  if m.color.isSome || m.texture.isSome then
    [.start "material" [("name", m.name)], .endElem "material"]
  else
    [.emptyElem "material" [("name", m.name)]]

/-- `UrdfModifier::write_link`: an open/close pair when the link has an
inertial, visual or collision entry (none of which is written), a
self-closing tag otherwise. -/
def write_link (l : Link) : List XmlEvent :=
  if l.inertial.isSome || !l.visual.isEmpty || !l.collision.isEmpty then
    [.start "link" [("name", l.name)], .endElem "link"]
  else
    [.emptyElem "link" [("name", l.name)]]

/-- `UrdfModifier::write_joint`: always an open/close pair holding
self-closing `parent` and `child`, then `origin` and `axis` when present. -/
def write_joint (j : Joint) : List XmlEvent :=
  [.start "joint" [("name", j.name), ("type", j.joint_type)],
   .emptyElem "parent" [("link", j.parent)],
   .emptyElem "child" [("link", j.child)]] ++
  (match j.origin with
   | some o => [.emptyElem "origin" [("xyz", fmt_triple o.xyz), ("rpy", fmt_triple o.rpy)]]
   | none => []) ++
  (match j.axis with
   | some a => [.emptyElem "axis" [("xyz", fmt_triple a.xyz)]]
   | none => []) ++
  [.endElem "joint"]

/-- `UrdfModifier::write_gazebo`: always self-closing. -/
def write_gazebo (g : GazeboElement) : List XmlEvent :=
  [.emptyElem "gazebo"
    (match g.reference with
     | some r => [("reference", r)]
     | none => [])]

/-- `UrdfModifier::write_transmission`: always self-closing. -/
def write_transmission (t : TransmissionElement) : List XmlEvent :=
  [.emptyElem "transmission" [("name", t.name)]]

/-- `UrdfModifier::regenerate_xml_with_formatting`: materials, links,
joints, gazebo blocks, transmission blocks inside one `robot` element;
the document's text is replaced. -/
def regenerate_xml_with_formatting (doc : UrdfDocument)
    (_options : FormatOptions) : UrdfDocument :=
  { doc with raw_xml :=
      [.start "robot" [("name", doc.robot.name)]] ++
      (doc.robot.materials.flatMap (fun p => write_material p.2)) ++
      (doc.robot.links.flatMap (fun p => write_link p.2)) ++
      (doc.robot.joints.flatMap (fun p => write_joint p.2)) ++
      (doc.robot.gazebo_elements.flatMap write_gazebo) ++
      (doc.robot.transmission_elements.flatMap write_transmission) ++
      [.endElem "robot"] }

/-- `UrdfModifier::regenerate_xml` (default formatting options). -/
def regenerate_xml (doc : UrdfDocument) : UrdfDocument :=
  regenerate_xml_with_formatting doc default_format_options

/-- `UrdfModifier::format_document`. -/
def format_document (doc : UrdfDocument) (options : FormatOptions) : UrdfDocument :=
  regenerate_xml_with_formatting doc options

/-- Rewrite one joint's parent/child references from `old` to `new`
(the body of the `values_mut` loops in `rename_element` and
`fix_naming_conventions`). -/
def rewrite_joint_refs (old new : String) (j : Joint) : Joint :=
  { j with parent := if j.parent = old then new else j.parent,
           child := if j.child = old then new else j.child }

/-- `UrdfModifier::rename_element`: remove under the old key, rewrite the
entry's own name, propagate (joint parent/child for links, visual material
references for materials, nothing for joints), insert under the new key,
regenerate.  Returns whether anything was renamed. -/
def rename_element (doc : UrdfDocument) (element_type old_name new_name : String) :
    Bool × UrdfDocument :=
  if element_type = "link" then
    match swap_removeIM doc.robot.links old_name with
    | some (link, rest) =>
      let link := { link with name := new_name }
      let joints := doc.robot.joints.map
        (fun p => (p.1, rewrite_joint_refs old_name new_name p.2))
      (true, regenerate_xml
        { doc with robot :=
            { doc.robot with links := insertIM rest new_name link, joints := joints } })
    | none => (false, doc)
  else if element_type = "joint" then
    match swap_removeIM doc.robot.joints old_name with
    | some (joint, rest) =>
      (true, regenerate_xml
        { doc with robot :=
            { doc.robot with joints := insertIM rest new_name { joint with name := new_name } } })
    | none => (false, doc)
  else if element_type = "material" then
    match swap_removeIM doc.robot.materials old_name with
    | some (material, rest) =>
      let links := doc.robot.links.map (fun p => (p.1,
        { p.2 with visual := p.2.visual.map (fun v =>
            { v with material := v.material.map (fun mr =>
                if mr.name = old_name then { mr with name := new_name } else mr) }) }))
      (true, regenerate_xml
        { doc with robot :=
            { doc.robot with
                links := links,
                materials := insertIM rest new_name { material with name := new_name } } })
    | none => (false, doc)
  else (false, doc)

/-- The first-character step of `UrdfModifier::fix_name`: a leading ASCII
digit gets an underscore pushed in front of it, an alphanumeric or
underscore character is kept lowercased — and anything else (including
whitespace and hyphens, which the rest-loop would replace) is dropped. -/
def fix_name_first (c : Char) : List Char :=
  (if is_ascii_digit c then ['_'] else []) ++
  (if is_alphanumeric c || c = '_' then [to_ascii_lowercase c] else [])

/-- The loop step of `UrdfModifier::fix_name` for non-first characters:
alphanumeric/underscore kept lowercased, whitespace and hyphens become
underscores, everything else dropped. -/
def fix_name_rest (c : Char) : List Char :=
  if is_alphanumeric c || c = '_' then [to_ascii_lowercase c]
  else if is_unicode_whitespace c || c = '-' then ['_']
  else []

/-- `UrdfModifier::fix_name`; an empty result falls back to `"unnamed"`. -/
def fix_name (name : String) : String :=
  let fixed :=
    match name.toList with
    | [] => []
    | c :: cs => fix_name_first c ++ cs.flatMap fix_name_rest
  if fixed.isEmpty then "unnamed" else String.mk fixed

/-- The link loop of `UrdfModifier::fix_naming_conventions`: for each bad
name (collected up front), rename the link and rewrite every joint's
parent/child references. -/
def fix_link_names : List String → Robot → Robot
  | [], r => r
  | old :: olds, r =>
    let new := fix_name old
    let r2 :=
      if new ≠ old then
        match swap_removeIM r.links old with
        | some (link, rest) =>
          { r with
              links := insertIM rest new { link with name := new },
              joints := r.joints.map (fun p => (p.1, rewrite_joint_refs old new p.2)) }
        | none => r
      else r
    fix_link_names olds r2

/-- The joint loop of `UrdfModifier::fix_naming_conventions` (no
propagation: nothing else references joints). -/
def fix_joint_names : List String → Robot → Robot
  | [], r => r
  | old :: olds, r =>
    let new := fix_name old
    let r2 :=
      if new ≠ old then
        match swap_removeIM r.joints old with
        | some (joint, rest) =>
          { r with joints := insertIM rest new { joint with name := new } }
        | none => r
      else r
    fix_joint_names olds r2

/-- `UrdfModifier::fix_naming_conventions`: fix all bad link names (each
collected before its loop runs), then all bad joint names. -/
def fix_naming_conventions (r : Robot) : Robot :=
  let r1 := fix_link_names
    ((IMap.keysOf r.links).filter (fun n => !is_valid_name n)) r
  fix_joint_names
    ((IMap.keysOf r1.joints).filter (fun n => !is_valid_name n)) r1

/-! ## Statement-level predicates and demonstration inputs -/

/-- The keys of a name-keyed collection are pairwise distinct (the
structural invariant of `IndexMap`, which the association-list model makes
explicit). -/
def keys_nodup {α : Type} (m : IMap α) : Prop := (IMap.keysOf m).Nodup

instance {α : Type} (m : IMap α) : Decidable (keys_nodup m) :=
  List.nodupDecidable (IMap.keysOf m)

/-- All three name-keyed collections have pairwise-distinct keys. -/
def robot_nodup (r : Robot) : Prop :=
  keys_nodup r.links ∧ keys_nodup r.joints ∧ keys_nodup r.materials

instance (r : Robot) : Decidable (robot_nodup r) := by
  unfold robot_nodup
  infer_instance

/-- What the parser is able to put inside a link: visuals and collisions
carry only their `name` attribute, and an inertial block is always the
fixed default of mass 1 (`parse_inertial` / `parse_visual` /
`parse_collision` skip the element contents). -/
def link_contents_ok (l : Link) : Prop :=
  (∀ v ∈ l.visual, v.origin = none ∧ v.geometry = none ∧ v.material = none) ∧
  (∀ c ∈ l.collision, c.origin = none ∧ c.geometry = none) ∧
  (∀ i, l.inertial = some i →
    i = { mass := .finite 1, origin := none, inertia := none })

/-- Invariant established by parsing. -/
def parse_inv (r : Robot) : Prop :=
  robot_nodup r ∧ ∀ p ∈ r.links, link_contents_ok p.2

/-- An empty link named `n`. -/
def bare_link (n : String) : Link :=
  { name := n, inertial := none, visual := [], collision := [] }

/-- A joint named `n` of type `t` from `p` to `c` with nothing optional. -/
def bare_joint (n t p c : String) : Joint :=
  { name := n, joint_type := t, parent := p, child := c,
    origin := none, axis := none, limit := none, dynamics := none, mimic := none }

/-- A robot with no elements at all. -/
def empty_robot (n : String) : Robot :=
  { name := n, links := [], joints := [], materials := [],
    gazebo_elements := [], transmission_elements := [] }

/-- The minimal valid one-link, zero-joint document, at event level:
`<robot name="r"><link name="base"></link></robot>`. -/
def minimal_events : List XmlEvent :=
  [.start "robot" [("name", "r")],
   .start "link" [("name", "base")],
   .endElem "link",
   .endElem "robot"]

/-- The parse of `minimal_events`. -/
def minimal_doc : UrdfDocument :=
  { robot := { empty_robot "r" with links := [("base", bare_link "base")] },
    raw_xml := minimal_events }

/-- A single-link, zero-joint robot (the shape the spec exempts from the
orphan check). -/
def single_link_robot : Robot :=
  { empty_robot "r" with links := [("base", bare_link "base")] }

/-- A robot whose joint edge set contains the cycle x→y→x between names
that are not link keys, next to an ordinary a→b joint between its two
links. -/
def phantom_cycle_robot : Robot :=
  { empty_robot "r" with
      links := [("a", bare_link "a"), ("b", bare_link "b")],
      joints := [("j0", bare_joint "j0" "fixed" "a" "b"),
                 ("j1", bare_joint "j1" "fixed" "x" "y"),
                 ("j2", bare_joint "j2" "fixed" "y" "x")] }

/-- A robot whose only link has a non-ASCII but Unicode-alphanumeric
name. -/
def accented_robot : Robot :=
  { empty_robot "r" with links := [("é", bare_link "é")] }

/-- A robot whose only link name starts with a hyphen followed by a
digit. -/
def hyphen_digit_robot : Robot :=
  { empty_robot "r" with links := [("-1a", bare_link "-1a")] }

/-- A link that has a visual entry (nested content). -/
def link_with_visual : Link :=
  { name := "a", inertial := none,
    visual := [{ name := none, origin := none, geometry := none, material := none }],
    collision := [] }

/-- A document fragment whose joint carries a two-token `xyz` origin. -/
def bad_origin_events : List XmlEvent :=
  [.start "robot" [("name", "r")],
   .start "joint" [("name", "j"), ("type", "fixed")],
   .emptyElem "origin" [("xyz", "1 2")],
   .endElem "joint",
   .endElem "robot"]

/-- A robot whose only link name contains a space (fixable in one pass). -/
def spacey_robot : Robot :=
  { empty_robot "r" with links := [("bad name", bare_link "bad name")] }

/-- The single-link robot wrapped in a document. -/
def base_doc : UrdfDocument :=
  { robot := single_link_robot, raw_xml := [] }

/-- A document whose robot declares one material and no links:
`<robot name="r"><material name="red"></material></robot>`. -/
def material_events : List XmlEvent :=
  [.start "robot" [("name", "r")],
   .start "material" [("name", "red")],
   .endElem "material",
   .endElem "robot"]

/-- The parse of `material_events`. -/
def material_doc : UrdfDocument :=
  { robot := { empty_robot "r" with
      materials := [("red", { name := "red", color := none, texture := none })] },
    raw_xml := material_events }

/-- A robot element whose link, joint and material children are all
written as self-closing tags. -/
def self_closing_events : List XmlEvent :=
  [.start "robot" [("name", "r")],
   .emptyElem "link" [("name", "a")],
   .emptyElem "joint" [("name", "j"), ("type", "fixed")],
   .emptyElem "material" [("name", "m")],
   .endElem "robot"]

/-! ## Claim C1 -/

/-- C1.  The claimed round trip fails on the code: parsing the minimal
one-link, zero-joint document succeeds, but regeneration emits the
contentless link as a self-closing tag, which the robot-level parsing loop
ignores — so re-parsing the regenerated text yields a model whose links
collection is empty instead of the original one-link collection.  (The
writer and the parser of the same codebase disagree: the parser drops
every self-closing child of `robot` that the writer produces.) -/
theorem c1_roundtrip_fails_on_minimal_document :
    parse_string minimal_events = .ok minimal_doc ∧
    (format_document minimal_doc default_format_options).raw_xml =
      [.start "robot" [("name", "r")],
       .emptyElem "link" [("name", "base")],
       .endElem "robot"] ∧
    parse_string (format_document minimal_doc default_format_options).raw_xml =
      .ok { robot := empty_robot "r",
            raw_xml := (format_document minimal_doc default_format_options).raw_xml } ∧
    (empty_robot "r").links ≠ minimal_doc.robot.links := by
  refine ⟨by decide, by decide, by decide, by decide⟩

/-! ## Claim C9 -/

/-- C9.  The robot-level dispatch loop reacts only to opening-tag start
events: an empty-element event at robot level is skipped without any other
effect (first conjunct, an unconditional step equation), so a document
whose link, joint and material children are all self-closing parses
successfully to a robot with empty collections (second conjunct). -/
theorem c9_self_closing_children_dropped :
    (∀ (fuel : ℕ) (r : Robot) (name : String)
        (attrs : List (String × String)) (es : List XmlEvent),
      parse_robot_loop (fuel + 1) r (.emptyElem name attrs :: es) =
        parse_robot_loop fuel r es) ∧
    parse_string self_closing_events =
      .ok { robot := empty_robot "r", raw_xml := self_closing_events } :=
  ⟨fun _ _ _ _ _ => rfl, by decide⟩

/-! ## Claim C3 -/

/-- C3 counterexample.  A link with a visual entry has nested content, yet
its serialization is an open/close pair with nothing between the two tags:
the visual child is not contained in the serialized text, contradicting
the claim that the pair contains the element's children. -/
theorem c3_counterexample :
    write_link link_with_visual =
      [.start "link" [("name", "a")], .endElem "link"] ∧
    link_with_visual.visual ≠ [] := by
  refine ⟨by decide, by decide⟩

/-- C3 as amended.  Regeneration emits an element with no nested content
as a self-closing tag and an element with nested content as an open/close
pair — but only a joint's pair contains its children (the self-closing
`parent`/`child` and the optional `origin`/`axis`); a link's
inertial/visual/collision entries and a material's color/texture are not
serialized into their pair, which is empty. -/
theorem c3_self_closing_vs_pairs (m : Material) (l : Link) (j : Joint) :
    ((m.color = none ∧ m.texture = none) ↔
      write_material m = [.emptyElem "material" [("name", m.name)]]) ∧
    (¬ (m.color = none ∧ m.texture = none) ↔
      write_material m = [.start "material" [("name", m.name)], .endElem "material"]) ∧
    ((l.inertial = none ∧ l.visual = [] ∧ l.collision = []) ↔
      write_link l = [.emptyElem "link" [("name", l.name)]]) ∧
    (¬ (l.inertial = none ∧ l.visual = [] ∧ l.collision = []) ↔
      write_link l = [.start "link" [("name", l.name)], .endElem "link"]) ∧
    write_joint j =
      [.start "joint" [("name", j.name), ("type", j.joint_type)],
       .emptyElem "parent" [("link", j.parent)],
       .emptyElem "child" [("link", j.child)]] ++
      (match j.origin with
       | some o => [.emptyElem "origin"
           [("xyz", fmt_triple o.xyz), ("rpy", fmt_triple o.rpy)]]
       | none => []) ++
      (match j.axis with
       | some a => [.emptyElem "axis" [("xyz", fmt_triple a.xyz)]]
       | none => []) ++
      [.endElem "joint"] := by
  refine ⟨?_, ?_, ?_, ?_, rfl⟩ <;>
    cases hc : m.color <;> cases ht : m.texture <;>
    cases hi : l.inertial <;> cases hv : l.visual <;> cases hk : l.collision <;>
    simp [write_material, write_link, hc, ht, hi, hv, hk]

/-! ## Claim C2 -/

/-- C2 counterexample, in two parts, one per divergence from the claim.
(1) A single-link, zero-joint robot — which the claim exempts from the
disconnection condition — satisfies all three claimed conditions
(exactly one root, no cycle, exemption applicable), yet
`validate_kinematic_tree` reports it: the code has no single-link
exemption and returns the orphan error.
(2) A robot whose joints carry the edges a→b, x→y and y→x, where x and y
are not link keys: the directed parent-to-child joint graph contains the
cycle x→y→x (read off the explicit joints list), yet validation returns
`Ok` — the cycle search starts only from the robot's links and never
reaches the cycle, so the claim's graph-wide no-cycle condition does not
govern the result. -/
theorem c2_counterexample :
    (single_link_robot.links.length = 1 ∧ single_link_robot.joints = [] ∧
      (find_root_links single_link_robot).length = 1 ∧
      has_cycles single_link_robot = false ∧
      validate_kinematic_tree single_link_robot =
        .error ["Found orphaned links: [\"base\"]"]) ∧
    (phantom_cycle_robot.joints =
        [("j0", bare_joint "j0" "fixed" "a" "b"),
         ("j1", bare_joint "j1" "fixed" "x" "y"),
         ("j2", bare_joint "j2" "fixed" "y" "x")] ∧
      has_cycles phantom_cycle_robot = false ∧
      validate_kinematic_tree phantom_cycle_robot = .ok ()) := by
  refine ⟨⟨by decide, by decide, by decide, by decide, by decide⟩,
    by decide, by decide, by decide⟩

/-- C2 as amended.  `validate_kinematic_tree` returns `Ok` exactly when
there is exactly one root link, the depth-first cycle search started from
the robot's links finds no cycle (a cycle reachable from no link is not
seen), and no link is disconnected from every joint — with **no**
single-link exemption.  The second and third conjuncts pin down the root
and orphan sets in the claim's terms: a root link is a link never
appearing as any joint's child, an orphaned link one appearing in no
joint's parent or child position. -/
theorem c2_validate_kinematic_tree_characterization (r : Robot) :
    (validate_kinematic_tree r = .ok () ↔
      (find_root_links r).length = 1 ∧ has_cycles r = false ∧
      find_orphaned_links r = []) ∧
    (∀ n, n ∈ find_root_links r ↔
      n ∈ IMap.keysOf r.links ∧ ∀ p ∈ r.joints, p.2.child ≠ n) ∧
    (∀ n, n ∈ find_orphaned_links r ↔
      n ∈ IMap.keysOf r.links ∧ ∀ p ∈ r.joints, p.2.parent ≠ n ∧ p.2.child ≠ n) := by
  refine ⟨?_, ?_, ?_⟩
  · by_cases h1 : (find_root_links r).length = 1 <;>
      by_cases h2 : has_cycles r <;>
      by_cases h3 : find_orphaned_links r = [] <;>
      simp [validate_kinematic_tree, h1, h2, h3]
  · intro n
    simp [find_root_links, List.mem_filter]
  · intro n
    simp only [find_orphaned_links, List.mem_filter, Bool.not_eq_true']
    rw [← Bool.not_eq_true, List.contains_eq_any_beq]
    simp only [List.any_eq_true, List.mem_flatMap, List.mem_cons,
      List.mem_singleton, beq_iff_eq]
    constructor
    · rintro ⟨hk, hc⟩
      exact ⟨hk, fun p hp =>
        ⟨fun e => hc ⟨p.2.parent, ⟨p, hp, .inl rfl⟩, e.symm⟩,
         fun e => hc ⟨p.2.child, ⟨p, hp, .inr (.inl rfl)⟩, e.symm⟩⟩⟩
    · rintro ⟨hk, h⟩
      refine ⟨hk, ?_⟩
      rintro ⟨x, ⟨p, hp, hx⟩, hnx⟩
      rcases hx with rfl | rfl | h0
      · exact (h p hp).1 hnx.symm
      · exact (h p hp).2 hnx.symm
      · cases h0

/-! ## Claim C5 -/

/-- A document in which every link and joint name already passes the
naming test is left untouched by the naming fix: both bad-name lists are
empty, so neither rewrite loop runs. -/
theorem fix_naming_fixes_nothing (r : Robot)
    (hl : ∀ n ∈ IMap.keysOf r.links, is_valid_name n)
    (hj : ∀ n ∈ IMap.keysOf r.joints, is_valid_name n) :
    fix_naming_conventions r = r := by
  have h1 : (IMap.keysOf r.links).filter (fun n => !is_valid_name n) = [] := by
    rw [List.filter_eq_nil_iff]
    intro a ha
    simp [hl a ha]
  have h2 : (IMap.keysOf r.joints).filter (fun n => !is_valid_name n) = [] := by
    rw [List.filter_eq_nil_iff]
    intro a ha
    simp [hj a ha]
  simp [fix_naming_conventions, h1, fix_link_names, h2, fix_joint_names]

/-- C5 counterexample.  The naming fix is not idempotent: on a link named
`-1a` the first character (a hyphen, which only the rest-of-name loop
would replace) is dropped, exposing the digit, so one application yields
the still-invalid name `1a` and a second application changes it again to
`_1a`. -/
theorem c5_counterexample :
    (fix_naming_conventions hyphen_digit_robot).links = [("1a", bare_link "1a")] ∧
    (fix_naming_conventions (fix_naming_conventions hyphen_digit_robot)).links =
      [("_1a", bare_link "_1a")] ∧
    fix_naming_conventions (fix_naming_conventions hyphen_digit_robot) ≠
      fix_naming_conventions hyphen_digit_robot ∧
    is_valid_name "1a" = false := by
  refine ⟨by decide, by decide, by decide, by decide⟩

/-- C5 as amended.  The naming fix is idempotent on every document whose
once-fixed link and joint names all pass the naming-convention test
(which can fail only when a dropped leading character exposes a digit, as
in the counterexample): on such documents a second application changes
nothing. -/
theorem c5_fix_naming_idempotent_on_valid_results (r : Robot)
    (hl : ∀ n ∈ IMap.keysOf (fix_naming_conventions r).links, is_valid_name n)
    (hj : ∀ n ∈ IMap.keysOf (fix_naming_conventions r).joints, is_valid_name n) :
    fix_naming_conventions (fix_naming_conventions r) = fix_naming_conventions r :=
  fix_naming_fixes_nothing (fix_naming_conventions r) hl hj

/-- C5 witness: a robot whose only link is named `bad name` is fully fixed
by one application (`bad_name` is valid), so the second application is the
identity on it. -/
theorem c5_witness :
    fix_naming_conventions (fix_naming_conventions spacey_robot) =
      fix_naming_conventions spacey_robot :=
  c5_fix_naming_idempotent_on_valid_results spacey_robot (by decide) (by decide)

/-! ## Association-list (IndexMap) lemmas -/

theorem lookupIM_cons_of_ne {α : Type} {e : String × α} {t : IMap α} {k : String}
    (h : ¬ e.1 = k) : lookupIM (e :: t) k = lookupIM t k := by
  simp [lookupIM, List.find?_cons, h]

theorem lookupIM_cons_self {α : Type} {e : String × α} {t : IMap α} {k : String}
    (h : e.1 = k) : lookupIM (e :: t) k = some e.2 := by
  simp [lookupIM, List.find?_cons, h]

theorem find_split_spec {α : Type} (k : String) :
    ∀ (m p : IMap α) (x : String × α) (s : IMap α),
      find_split k m = some (p, x, s) →
      m = p ++ x :: s ∧ x.1 = k ∧ ∀ e ∈ p, e.1 ≠ k := by
  intro m
  induction m with
  | nil => intro p x s h; simp [find_split] at h
  | cons e es ih =>
    intro p x s h
    by_cases he : e.1 = k
    · simp [find_split, he] at h
      obtain ⟨rfl, rfl, rfl⟩ := h
      exact ⟨rfl, he, by simp⟩
    · simp only [find_split, he, if_false, Option.map_eq_some'] at h
      obtain ⟨⟨p2, x2, s2⟩, hfs, heq⟩ := h
      obtain ⟨h1, h2, h3⟩ := ih p2 x2 s2 hfs
      cases heq
      refine ⟨by simp [h1], h2, ?_⟩
      intro e2 he2
      rcases List.mem_cons.mp he2 with rfl | hmem
      · exact he
      · exact h3 e2 hmem

theorem rot_last_perm {α : Type} : ∀ l : List α, (rot_last l).Perm l := by
  intro l
  induction l with
  | nil => simp [rot_last]
  | cons e es ih =>
    cases es with
    | nil => simp [rot_last]
    | cons f fs =>
      rw [show rot_last (e :: f :: fs) =
        (match rot_last (f :: fs) with
         | g :: gs => g :: e :: gs
         | [] => [e]) from rfl]
      cases hr : rot_last (f :: fs) with
      | nil =>
        rw [hr] at ih
        exact absurd ih.symm (by simp)
      | cons g gs =>
        rw [hr] at ih
        exact (List.Perm.swap e g gs).trans (ih.cons e)

theorem swap_removeIM_eq_some {α : Type} {m : IMap α} {k : String}
    {v : α} {rest : IMap α} (h : swap_removeIM m k = some (v, rest)) :
    ∃ p x s, m = p ++ x :: s ∧ x.1 = k ∧ x.2 = v ∧
      rest = p ++ rot_last s ∧ ∀ e ∈ p, e.1 ≠ k := by
  simp only [swap_removeIM, Option.map_eq_some'] at h
  obtain ⟨⟨p, x, s⟩, hfs, heq⟩ := h
  obtain ⟨h1, h2, h3⟩ := find_split_spec k m p x s hfs
  cases heq
  exact ⟨p, x, s, h1, h2, rfl, rfl, h3⟩

theorem lookupIM_append_cons {α : Type} {k : String} {x : String × α}
    (s : IMap α) : ∀ (p : IMap α), (∀ e ∈ p, e.1 ≠ k) → x.1 = k →
    lookupIM (p ++ x :: s) k = some x.2 := by
  intro p
  induction p with
  | nil => intro _ hx; simp [lookupIM, List.find?_cons, hx]
  | cons e t ih =>
    intro hp hx
    rw [List.cons_append, lookupIM_cons_of_ne (hp e (List.mem_cons_self e t))]
    exact ih (fun q hq => hp q (List.mem_cons_of_mem e hq)) hx

theorem lookupIM_eq_none_of_not_mem {α : Type} {m : IMap α} {k : String}
    (h : k ∉ IMap.keysOf m) : lookupIM m k = none := by
  simp only [lookupIM, Option.map_eq_none', List.find?_eq_none, decide_eq_true_eq]
  intro e he hek
  exact h (hek ▸ List.mem_map_of_mem (fun z => z.1) he)

theorem keysOf_insertIM_of_mem {α : Type} {m : IMap α} {k : String} (v : α)
    (h : m.any (fun p => p.1 = k) = true) :
    IMap.keysOf (insertIM m k v) = IMap.keysOf m := by
  simp only [insertIM, h, if_true, IMap.keysOf, List.map_map]
  refine List.map_congr_left ?_
  intro p _
  by_cases hp : p.1 = k <;> simp [hp]

theorem keysOf_insertIM_of_not_mem {α : Type} {m : IMap α} {k : String} (v : α)
    (h : ¬ m.any (fun p => p.1 = k) = true) :
    IMap.keysOf (insertIM m k v) = IMap.keysOf m ++ [k] := by
  simp [insertIM, h, IMap.keysOf]

theorem keys_nodup_insertIM {α : Type} {m : IMap α} (k : String) (v : α)
    (h : keys_nodup m) : keys_nodup (insertIM m k v) := by
  unfold keys_nodup at h ⊢
  by_cases hm : m.any (fun p => p.1 = k) = true
  · rw [keysOf_insertIM_of_mem v hm]
    exact h
  · rw [keysOf_insertIM_of_not_mem v hm]
    have hk : k ∉ IMap.keysOf m := by
      simp only [List.any_eq_true, decide_eq_true_eq] at hm
      intro hmem
      obtain ⟨p, hp, he⟩ := List.mem_map.mp hmem
      exact hm ⟨p, hp, he⟩
    simp [List.nodup_append, h, hk]

theorem lookupIM_insertIM_self {α : Type} (k : String) (v : α) :
    ∀ m : IMap α, lookupIM (insertIM m k v) k = some v := by
  intro m
  induction m with
  | nil => simp [insertIM, lookupIM]
  | cons e t ih =>
    by_cases he : e.1 = k
    · simp [insertIM, lookupIM, he]
    · have hany : (e :: t).any (fun p => p.1 = k) = t.any (fun p => p.1 = k) := by
        simp [List.any_cons, he]
      by_cases ht : t.any (fun p => p.1 = k) = true
      · rw [show insertIM (e :: t) k v =
          (if e.1 = k then (k, v) else e) ::
            t.map (fun p => if p.1 = k then (k, v) else p) by
            simp [insertIM, hany, ht]]
        rw [if_neg he, lookupIM_cons_of_ne he]
        have hrec := ih
        rw [show insertIM t k v = t.map (fun p => if p.1 = k then (k, v) else p) by
          simp [insertIM, ht]] at hrec
        exact hrec
      · rw [show insertIM (e :: t) k v = e :: (t ++ [(k, v)]) by
          simp [insertIM, hany, ht]]
        rw [lookupIM_cons_of_ne he]
        have hrec := ih
        rw [show insertIM t k v = t ++ [(k, v)] by simp [insertIM, ht]] at hrec
        exact hrec

theorem lookupIM_map_replace_ne {α : Type} {k q : String} {v : α} (hne : q ≠ k) :
    ∀ m : IMap α,
      lookupIM (m.map (fun p => if p.1 = k then (k, v) else p)) q = lookupIM m q := by
  intro m
  induction m with
  | nil => rfl
  | cons e t ih =>
    by_cases hek : e.1 = k
    · rw [List.map_cons, if_pos hek,
        lookupIM_cons_of_ne (show ¬ ((k, v) : String × α).1 = q from fun h => hne h.symm),
        lookupIM_cons_of_ne (show ¬ e.1 = q from fun h => hne (h.symm.trans hek))]
      exact ih
    · by_cases heq : e.1 = q
      · rw [List.map_cons, if_neg hek, lookupIM_cons_self heq, lookupIM_cons_self heq]
      · rw [List.map_cons, if_neg hek, lookupIM_cons_of_ne heq, lookupIM_cons_of_ne heq]
        exact ih

theorem lookupIM_append_single_ne {α : Type} {k q : String} {v : α} (hne : q ≠ k) :
    ∀ m : IMap α, lookupIM (m ++ [(k, v)]) q = lookupIM m q := by
  intro m
  induction m with
  | nil =>
    rw [List.nil_append,
      lookupIM_cons_of_ne (show ¬ ((k, v) : String × α).1 = q from fun h => hne h.symm)]
  | cons e t ih =>
    by_cases heq : e.1 = q
    · rw [List.cons_append, lookupIM_cons_self heq, lookupIM_cons_self heq]
    · rw [List.cons_append, lookupIM_cons_of_ne heq, lookupIM_cons_of_ne heq]
      exact ih

theorem lookupIM_insertIM_ne {α : Type} (m : IMap α) {k q : String} (v : α)
    (hne : q ≠ k) : lookupIM (insertIM m k v) q = lookupIM m q := by
  by_cases hm : m.any (fun p => p.1 = k) = true
  · simp only [insertIM, hm, if_true]
    exact lookupIM_map_replace_ne hne m
  · simp only [insertIM, hm, if_false]
    exact lookupIM_append_single_ne hne m

/-! ## Claim C4 -/

theorem not_mem_keys_swap_rest {α : Type} {m : IMap α} {k : String} {v : α}
    {rest : IMap α} (hnd : keys_nodup m)
    (h : swap_removeIM m k = some (v, rest)) : k ∉ IMap.keysOf rest := by
  obtain ⟨p, x, s, rfl, hxk, hxv, rfl, hp⟩ := swap_removeIM_eq_some h
  intro hmem
  unfold IMap.keysOf at hmem
  rw [List.map_append] at hmem
  rcases List.mem_append.mp hmem with hin | hin
  · obtain ⟨e, he, heq⟩ := List.mem_map.mp hin
    exact hp e he heq
  · have hin2 : k ∈ s.map (fun z => z.1) :=
      (((rot_last_perm s).map (fun z => z.1)).mem_iff).mp hin
    unfold keys_nodup IMap.keysOf at hnd
    rw [List.map_append, List.map_cons] at hnd
    have hmid := (List.nodup_append.mp hnd).2.1
    rw [List.nodup_cons] at hmid
    exact hmid.1 (hxk ▸ hin2)

/-- C4 counterexample.  Renaming a link to its own name succeeds (returns
true), yet afterwards the links collection still contains the old name —
so the claim, quantified over *every* pair of names, fails when
`old = new`. -/
theorem c4_counterexample :
    (rename_element base_doc "link" "base" "base").1 = true ∧
    lookupIM (rename_element base_doc "link" "base" "base").2.robot.links
      "base" ≠ none := by
  refine ⟨by decide, by decide⟩

/-- C4 as amended (restricted to `old ≠ new`, with the `IndexMap` key
invariant made explicit).  After a successful link rename, the joints
collection is exactly the old one with every parent/child field equal to
`old` rewritten to `new` (first conjunct), hence no joint references
`old` any more (second conjunct); the links collection maps `new` to the
renamed old link (third conjunct) and no longer contains `old`
(fourth conjunct). -/
theorem c4_rename_link_propagates (doc : UrdfDocument) (old new : String)
    (hne : old ≠ new) (hnd : keys_nodup doc.robot.links)
    (hok : (rename_element doc "link" old new).1 = true) :
    (rename_element doc "link" old new).2.robot.joints =
      doc.robot.joints.map (fun p => (p.1, rewrite_joint_refs old new p.2)) ∧
    (∀ p ∈ (rename_element doc "link" old new).2.robot.joints,
      p.2.parent ≠ old ∧ p.2.child ≠ old) ∧
    (∃ l, lookupIM doc.robot.links old = some l ∧
      lookupIM (rename_element doc "link" old new).2.robot.links new =
        some { l with name := new }) ∧
    lookupIM (rename_element doc "link" old new).2.robot.links old = none := by
  cases hsw : swap_removeIM doc.robot.links old with
  | none =>
    exfalso
    rw [show rename_element doc "link" old new = (false, doc) by
      simp [rename_element, hsw]] at hok
    exact Bool.false_ne_true hok
  | some pr =>
    obtain ⟨link, rest⟩ := pr
    rw [show rename_element doc "link" old new =
      (true, regenerate_xml { doc with robot := { doc.robot with
          links := insertIM rest new { link with name := new },
          joints := doc.robot.joints.map
            (fun p => (p.1, rewrite_joint_refs old new p.2)) } }) by
      simp [rename_element, hsw]]
    refine ⟨rfl, ?_, ?_, ?_⟩
    · rintro ⟨k2, j2⟩ hmem
      obtain ⟨q, hq, heq⟩ := List.mem_map.mp hmem
      cases heq
      constructor
      · by_cases hp : q.2.parent = old <;>
          simp [rewrite_joint_refs, hp, Ne.symm hne]
      · by_cases hp : q.2.child = old <;>
          simp [rewrite_joint_refs, hp, Ne.symm hne]
    · refine ⟨link, ?_, ?_⟩
      · obtain ⟨p, x, s, hm, hxk, hxv, hrest, hp⟩ := swap_removeIM_eq_some hsw
        rw [hm]
        have hlook := lookupIM_append_cons s p (fun e he h => hp e he h) hxk
        rw [hlook, hxv]
      · exact lookupIM_insertIM_self new { link with name := new } rest
    · rw [show (true, regenerate_xml { doc with robot := { doc.robot with
          links := insertIM rest new { link with name := new },
          joints := doc.robot.joints.map
            (fun p => (p.1, rewrite_joint_refs old new p.2)) } }).2.robot.links =
        insertIM rest new { link with name := new } from rfl]
      rw [lookupIM_insertIM_ne rest { link with name := new } hne]
      exact lookupIM_eq_none_of_not_mem (not_mem_keys_swap_rest hnd hsw)

/-- C4 witness: renaming `base` to `root` on the single-link document
leaves no entry under `base`. -/
theorem c4_witness :
    lookupIM (rename_element base_doc "link" "base" "root").2.robot.links
      "base" = none :=
  (c4_rename_link_propagates base_doc "base" "root" (by decide) (by decide)
    (by decide)).2.2.2

/-! ## Claim C7 -/

theorem category_check_structural (r : Robot) :
    ∀ i ∈ check_structural_issues r, i.category = .struct := by
  intro i hi
  cases hv : validate_kinematic_tree r with
  | ok u => simp [check_structural_issues, hv] at hi
  | error errs =>
    simp only [check_structural_issues, hv, List.mem_map] at hi
    obtain ⟨e, _, rfl⟩ := hi
    rfl

theorem category_check_physics (r : Robot) :
    ∀ i ∈ check_physics_properties r, i.category = .physics := by
  intro i hi
  simp only [check_physics_properties, List.mem_filterMap] at hi
  obtain ⟨p, _, hp⟩ := hi
  split at hp
  · cases hp; rfl
  · cases hp

theorem category_check_duplicates (r : Robot) :
    ∀ i ∈ check_duplicate_elements r, i.category = .validation := by
  intro i hi
  simp only [check_duplicate_elements, List.mem_filterMap] at hi
  obtain ⟨p, _, hp⟩ := hi
  split at hp
  · cases hp; rfl
  · cases hp

theorem category_check_unused (r : Robot) :
    ∀ i ∈ check_unused_materials r, i.category = .style := by
  intro i hi
  simp only [check_unused_materials, List.mem_map] at hi
  obtain ⟨e, _, rfl⟩ := hi
  rfl

theorem category_check_joint_limits (r : Robot) :
    ∀ i ∈ check_joint_limits r, i.category = .physics := by
  intro i hi
  simp only [check_joint_limits, List.mem_filterMap] at hi
  obtain ⟨p, _, hp⟩ := hi
  split at hp
  · cases hp; rfl
  · cases hp

theorem is_valid_name_charact (n : String) :
    is_valid_name n = true ↔
      ¬ (n.toList = [] ∨ (∃ c ∈ n.toList, ¬ (is_alphanumeric c = true ∨ c = '_')) ∨
         (∃ c, n.toList.head? = some c ∧ is_ascii_digit c = true)) := by
  have hemp : n.isEmpty = true ↔ n.toList = [] := by
    rw [String.isEmpty_iff]
    constructor
    · intro h; rw [h]; rfl
    · intro h; exact String.ext h
  simp only [is_valid_name, Bool.and_eq_true, Bool.not_eq_true', List.all_eq_true,
    Bool.or_eq_true, decide_eq_true_eq, not_or, not_exists, not_and]
  constructor
  · rintro ⟨⟨h1, h2⟩, h3⟩
    refine ⟨?_, ?_, ?_⟩
    · intro hnil
      rw [hemp.mpr hnil] at h1
      cases h1
    · intro x hx hna hne
      rcases h2 x hx with h | h
      · exact hna h
      · exact hne h
    · intro x hx hd
      rw [hx] at h3
      rw [show Option.any is_ascii_digit (some x) = is_ascii_digit x from rfl, hd] at h3
      cases h3
  · rintro ⟨h1, h2, h3⟩
    refine ⟨⟨?_, ?_⟩, ?_⟩
    · by_cases hb : n.isEmpty = true
      · exact absurd (hemp.mp hb) h1
      · simpa using hb
    · intro x hx
      by_cases ha : is_alphanumeric x = true
      · exact Or.inl ha
      · exact Or.inr (not_not.mp (h2 x hx ha))
    · cases hh : n.toList.head? with
      | none => rfl
      | some c =>
        rw [show Option.any is_ascii_digit (some c) = is_ascii_digit c from rfl]
        simpa using h3 c hh

/-- C7 counterexample.  The name `é` is empty of ASCII letters — it
consists of a character that is neither an ASCII letter, an ASCII digit
nor an underscore — so the claim requires a Warning/Naming issue for it;
but Rust's `char::is_alphanumeric` is a Unicode test, `é` passes
`is_valid_name`, and the lint pass of a robot with a link named `é`
produces no Warning/Naming issue at all. -/
theorem c7_counterexample :
    ("é".toList.all (fun c => c.isAlpha || c.isDigit || c = '_') = false) ∧
    is_valid_name "é" = true ∧
    (∀ i ∈ lint accented_robot, ¬ (i.severity = .warning ∧ i.category = .naming)) := by
  refine ⟨by decide, by decide, by decide⟩

/-- C7 as amended.  The lint pass emits a Warning/Naming issue carrying a
name `n` if and only if `n` is a link or joint key that fails
`is_valid_name`; and `is_valid_name` fails exactly when the name is empty,
contains a character that is neither Unicode-alphanumeric (per Rust's
`char::is_alphanumeric`, not merely ASCII) nor an underscore, or starts
with an ASCII digit. -/
theorem c7_naming_issue_characterization (r : Robot) (n : String) :
    ((∃ i ∈ lint r, i.severity = .warning ∧ i.category = .naming ∧
        i.element_name = some n) ↔
      ((n ∈ IMap.keysOf r.links ∨ n ∈ IMap.keysOf r.joints) ∧
        ¬ is_valid_name n = true)) ∧
    (is_valid_name n = true ↔
      ¬ (n.toList = [] ∨ (∃ c ∈ n.toList, ¬ (is_alphanumeric c = true ∨ c = '_')) ∨
         (∃ c, n.toList.head? = some c ∧ is_ascii_digit c = true))) := by
  refine ⟨?_, is_valid_name_charact n⟩
  constructor
  · rintro ⟨i, hmem, hsev, hcat, hname⟩
    unfold lint at hmem
    rcases List.mem_append.mp hmem with hmem | h6
    rcases List.mem_append.mp hmem with hmem | h5
    rcases List.mem_append.mp hmem with hmem | h4
    rcases List.mem_append.mp hmem with hmem | h3
    rcases List.mem_append.mp hmem with h1 | h2
    · unfold check_naming_conventions at h1
      rcases List.mem_append.mp h1 with hl | hj
      · obtain ⟨n2, hn2, rfl⟩ := List.mem_map.mp hl
        obtain ⟨hmemk, hval⟩ := List.mem_filter.mp hn2
        cases Option.some_inj.mp hname
        exact ⟨Or.inl hmemk, by simpa using hval⟩
      · obtain ⟨n2, hn2, rfl⟩ := List.mem_map.mp hj
        obtain ⟨hmemk, hval⟩ := List.mem_filter.mp hn2
        cases Option.some_inj.mp hname
        exact ⟨Or.inr hmemk, by simpa using hval⟩
    · rw [category_check_structural r i h2] at hcat
      cases hcat
    · rw [category_check_physics r i h3] at hcat
      cases hcat
    · rw [category_check_duplicates r i h4] at hcat
      cases hcat
    · rw [category_check_unused r i h5] at hcat
      cases hcat
    · rw [category_check_joint_limits r i h6] at hcat
      cases hcat
  · rintro ⟨hside, hval⟩
    rcases hside with hmem | hmem
    · refine ⟨link_naming_issue n, ?_, rfl, rfl, rfl⟩
      unfold lint
      refine List.mem_append_left _ (List.mem_append_left _ (List.mem_append_left _
        (List.mem_append_left _ (List.mem_append_left _ ?_))))
      unfold check_naming_conventions
      refine List.mem_append_left _ ?_
      exact List.mem_map_of_mem _ (List.mem_filter.mpr ⟨hmem, by simpa using hval⟩)
    · refine ⟨joint_naming_issue n, ?_, rfl, rfl, rfl⟩
      unfold lint
      refine List.mem_append_left _ (List.mem_append_left _ (List.mem_append_left _
        (List.mem_append_left _ (List.mem_append_left _ ?_))))
      unfold check_naming_conventions
      refine List.mem_append_right _ ?_
      exact List.mem_map_of_mem _ (List.mem_filter.mpr ⟨hmem, by simpa using hval⟩)

/-! ## Claim C8 -/

theorem collect_floats_eq_none :
    ∀ l : List String, collect_floats l = none ↔ ∃ t ∈ l, parse_f64 t = none := by
  intro l
  induction l with
  | nil => simp [collect_floats]
  | cons t ts ih =>
    cases ht : parse_f64 t with
    | none =>
      simp only [collect_floats, ht]
      exact ⟨fun _ => ⟨t, List.mem_cons_self t ts, ht⟩, fun _ => trivial⟩
    | some v =>
      rw [show collect_floats (t :: ts) =
        (collect_floats ts).map (fun vs => v :: vs) by simp [collect_floats, ht]]
      rw [Option.map_eq_none', ih]
      constructor
      · rintro ⟨x, hx, hnone⟩
        exact ⟨x, List.mem_cons_of_mem t hx, hnone⟩
      · rintro ⟨x, hx, hnone⟩
        rcases List.mem_cons.mp hx with rfl | hx2
        · rw [ht] at hnone; cases hnone
        · exact ⟨x, hx2, hnone⟩

theorem collect_floats_length {l : List String} {out : List F64}
    (h : collect_floats l = some out) : out.length = l.length := by
  induction l generalizing out with
  | nil => simp [collect_floats] at h; simp [h]
  | cons t ts ih =>
    cases ht : parse_f64 t with
    | none =>
      rw [show collect_floats (t :: ts) = none by simp [collect_floats, ht]] at h
      cases h
    | some v =>
      rw [show collect_floats (t :: ts) =
        (collect_floats ts).map (fun vs => v :: vs) by simp [collect_floats, ht]] at h
      rw [Option.map_eq_some'] at h
      obtain ⟨vs, hvs, rfl⟩ := h
      simp [ih hvs]

theorem parse_f64_zero : parse_f64 "0" = some (.finite 0) := by
  rw [show parse_f64 "0" = some (decimal_value false ['0'] [] false 0) from rfl]
  have hd : digits_to_nat ['0'] = 0 := by decide
  have hd2 : digits_to_nat ([] : List Char) = 0 := by decide
  unfold decimal_value
  rw [hd, hd2]
  norm_num

theorem parse_f64_one : parse_f64 "1" = some (.finite 1) := by
  rw [show parse_f64 "1" = some (decimal_value false ['1'] [] false 0) from rfl]
  have hd : digits_to_nat ['1'] = 1 := by decide
  have hd2 : digits_to_nat ([] : List Char) = 0 := by decide
  unfold decimal_value
  rw [hd, hd2]
  norm_num

theorem parse_three_floats_zero :
    parse_three_floats "0 0 0" = .ok (.finite 0, .finite 0, .finite 0) := by
  unfold parse_three_floats
  rw [show split_whitespace "0 0 0" = ["0", "0", "0"] from rfl]
  simp [collect_floats, parse_f64_zero]

theorem parse_three_floats_unit_x :
    parse_three_floats "1 0 0" = .ok (.finite 1, .finite 0, .finite 0) := by
  unfold parse_three_floats
  rw [show split_whitespace "1 0 0" = ["1", "0", "0"] from rfl]
  simp [collect_floats, parse_f64_zero, parse_f64_one]

/-- C8 counterexample.  A two-token `xyz` string fails with the arity
error `Expected 3 values, got 2`, whose message does *not* contain the
offending string `1 2` — the claim that the StructuralError names the
offending string holds only for the non-numeric-token case. -/
theorem c8_counterexample :
    parse_three_floats "1 2" =
      .error (.invalidStructure "Expected 3 values, got 2") ∧
    ¬ "1 2".toList <:+: "Expected 3 values, got 2".toList := by
  refine ⟨by decide, by decide⟩

/-- C8 as amended.  Numeric-triple parsing splits on (Unicode) whitespace
and converts every token: a non-numeric token yields a StructuralError
naming the offending string, and a wrong token count yields a
StructuralError naming the expected and actual counts (not the string);
otherwise parsing succeeds.  An absent `xyz` defaults to the zero vector
(as does `rpy`) and an absent axis to the x-unit vector, without error;
and the failure is propagated, so no partial document is produced
(final conjunct: a document whose only flaw is a two-token origin fails
as a whole with the arity error). -/
theorem c8_numeric_triple_errors :
    (∀ s : String,
      ((∃ t ∈ split_whitespace s, parse_f64 t = none) →
        parse_three_floats s =
          .error (.invalidStructure ("Invalid float array: " ++ s))) ∧
      ((∀ t ∈ split_whitespace s, parse_f64 t ≠ none) →
        (split_whitespace s).length ≠ 3 →
        parse_three_floats s = .error (.invalidStructure
          ("Expected 3 values, got " ++ toString (split_whitespace s).length))) ∧
      ((∀ t ∈ split_whitespace s, parse_f64 t ≠ none) →
        (split_whitespace s).length = 3 →
        ∃ v, parse_three_floats s = .ok v)) ∧
    (∀ attrs, get_optional_attribute attrs "xyz" = none →
      get_optional_attribute attrs "rpy" = none →
      parse_origin_from_attributes attrs =
        .ok { xyz := (.finite 0, .finite 0, .finite 0),
              rpy := (.finite 0, .finite 0, .finite 0) }) ∧
    (∀ attrs, get_optional_attribute attrs "xyz" = none →
      parse_axis_from_attributes attrs =
        .ok { xyz := (.finite 1, .finite 0, .finite 0) }) ∧
    parse_string bad_origin_events =
      .error (.invalidStructure "Expected 3 values, got 2") := by
  refine ⟨?_, ?_, ?_, by decide⟩
  · intro s
    refine ⟨?_, ?_, ?_⟩
    · rintro ⟨t, ht, hn⟩
      have hc : collect_floats (split_whitespace s) = none :=
        (collect_floats_eq_none _).mpr ⟨t, ht, hn⟩
      simp [parse_three_floats, hc]
    · intro hall hlen
      cases hc : collect_floats (split_whitespace s) with
      | none =>
        obtain ⟨t, ht, hn⟩ := (collect_floats_eq_none _).mp hc
        exact absurd hn (hall t ht)
      | some out =>
        have hL : out.length = (split_whitespace s).length := collect_floats_length hc
        unfold parse_three_floats
        rw [hc]
        rcases out with _ | ⟨a, _ | ⟨b, _ | ⟨c, _ | ⟨d, t⟩⟩⟩⟩
        · rw [← hL]
        · rw [← hL]
        · rw [← hL]
        · exact absurd (by simpa using hL.symm) hlen
        · rw [← hL]
    · intro hall hlen
      cases hc : collect_floats (split_whitespace s) with
      | none =>
        obtain ⟨t, ht, hn⟩ := (collect_floats_eq_none _).mp hc
        exact absurd hn (hall t ht)
      | some out =>
        have hL : out.length = 3 := (collect_floats_length hc).trans hlen
        obtain ⟨a, b, c, rfl⟩ := List.length_eq_three.mp hL
        exact ⟨(a, b, c), by simp [parse_three_floats, hc]⟩
  · intro attrs h1 h2
    unfold parse_origin_from_attributes
    rw [h1, h2]
    simp only [Option.getD_none]
    rw [parse_three_floats_zero]
    rfl
  · intro attrs h1
    unfold parse_axis_from_attributes
    rw [h1]
    simp only [Option.getD_none]
    rw [parse_three_floats_unit_x]
    rfl

/-- C8 witness: a fully non-numeric triple fails with the error naming
the offending string. -/
theorem c8_witness :
    parse_three_floats "a b c" =
      .error (.invalidStructure "Invalid float array: a b c") :=
  (c8_numeric_triple_errors.1 "a b c").1 ⟨"a", by decide, by decide⟩

/-! ## Parser invariants (shared by C6 and C10) -/

theorem parse_link_loop_inv :
    ∀ (fuel : ℕ) (l : Link) (es : List XmlEvent) (out : Link × List XmlEvent),
      parse_link_loop fuel l es = .ok out → link_contents_ok l →
      link_contents_ok out.1 := by
  intro fuel
  induction fuel with
  | zero => intro l es out h; simp [parse_link_loop] at h
  | succ n ih =>
    intro l es out h hin
    cases es with
    | nil => simp [parse_link_loop] at h
    | cons e rest =>
      cases e with
      | start nm attrs =>
        simp only [parse_link_loop] at h
        split at h
        · refine ih _ _ _ h ⟨hin.1, hin.2.1, ?_⟩
          intro i hi
          cases hi
          rfl
        · split at h
          · refine ih _ _ _ h ⟨?_, hin.2.1, hin.2.2⟩
            intro v hv
            rcases List.mem_append.mp hv with hv | hv
            · exact hin.1 v hv
            · rw [List.mem_singleton.mp hv]
              exact ⟨rfl, rfl, rfl⟩
          · split at h
            · refine ih _ _ _ h ⟨hin.1, ?_, hin.2.2⟩
              intro c hc
              rcases List.mem_append.mp hc with hc | hc
              · exact hin.2.1 c hc
              · rw [List.mem_singleton.mp hc]
                exact ⟨rfl, rfl⟩
            · exact ih _ _ _ h hin
      | endElem nm =>
        simp only [parse_link_loop] at h
        split at h
        · cases h
          exact hin
        · exact ih _ _ _ h hin
      | emptyElem nm attrs =>
        simp only [parse_link_loop] at h
        exact ih _ _ _ h hin
      | text c =>
        simp only [parse_link_loop] at h
        exact ih _ _ _ h hin

theorem mem_insertIM {α : Type} {m : IMap α} {k : String} {v : α}
    {p : String × α} (h : p ∈ insertIM m k v) : p ∈ m ∨ p = (k, v) := by
  unfold insertIM at h
  split at h
  · obtain ⟨q, hq, hqe⟩ := List.mem_map.mp h
    by_cases hqk : q.1 = k
    · right
      rw [← hqe, if_pos hqk]
    · left
      rw [← hqe, if_neg hqk]
      exact hq
  · rcases List.mem_append.mp h with h2 | h2
    · exact Or.inl h2
    · exact Or.inr (List.mem_singleton.mp h2)

theorem parse_inv_insert_link {r : Robot} {link : Link}
    (hin : parse_inv r) (hl : link_contents_ok link) (k : String) :
    parse_inv { r with links := insertIM r.links k link } := by
  refine ⟨⟨keys_nodup_insertIM k link hin.1.1, hin.1.2.1, hin.1.2.2⟩, ?_⟩
  intro p hp
  rcases mem_insertIM hp with hp2 | hp2
  · exact hin.2 p hp2
  · rw [hp2]
    exact hl

theorem except_ok_bind {eps a b : Type} (x : a) (f : a → Except eps b) :
    (Except.ok x >>= f) = f x := rfl

theorem except_bind_ok {eps a b : Type} {x : Except eps a} {f : a → Except eps b}
    {v : b} (h : (x >>= f) = .ok v) : ∃ u, x = .ok u ∧ f u = .ok v := by
  cases x with
  | error e => simp [Bind.bind, Except.bind] at h
  | ok u => exact ⟨u, rfl, by simpa [Bind.bind, Except.bind] using h⟩

theorem parse_inv_insert_joint {r : Robot} (joint : Joint)
    (hin : parse_inv r) (k : String) :
    parse_inv { r with joints := insertIM r.joints k joint } :=
  ⟨⟨hin.1.1, keys_nodup_insertIM k joint hin.1.2.1, hin.1.2.2⟩, hin.2⟩

theorem parse_inv_insert_material {r : Robot} (material : Material)
    (hin : parse_inv r) (k : String) :
    parse_inv { r with materials := insertIM r.materials k material } :=
  ⟨⟨hin.1.1, hin.1.2.1, keys_nodup_insertIM k material hin.1.2.2⟩, hin.2⟩

theorem parse_robot_loop_inv :
    ∀ (fuel : ℕ) (r : Robot) (es : List XmlEvent) (out : Robot × List XmlEvent),
      parse_robot_loop fuel r es = .ok out → parse_inv r → parse_inv out.1 := by
  intro fuel
  induction fuel with
  | zero => intro r es out h; simp [parse_robot_loop] at h
  | succ n ih =>
    intro r es out h hin
    cases es with
    | nil => simp [parse_robot_loop] at h
    | cons e rest =>
      cases e with
      | start nm attrs =>
        simp only [parse_robot_loop] at h
        split at h
        · unfold parse_link at h
          cases hna : get_required_attribute attrs "name" with
          | error er => rw [hna] at h; cases h
          | ok name =>
            rw [hna, except_ok_bind] at h
            obtain ⟨⟨link, rest2⟩, hpl, hcont⟩ := except_bind_ok h
            have hl : link_contents_ok link :=
              parse_link_loop_inv n _ _ _ hpl
                ⟨by simp [link_contents_ok], by simp, by simp⟩
            exact ih _ _ _ hcont (parse_inv_insert_link hin hl link.name)
        · split at h
          · obtain ⟨⟨joint, rest2⟩, _, hcont⟩ := except_bind_ok h
            exact ih _ _ _ hcont (parse_inv_insert_joint joint hin joint.name)
          · split at h
            · obtain ⟨⟨material, rest2⟩, _, hcont⟩ := except_bind_ok h
              exact ih _ _ _ hcont
                (parse_inv_insert_material material hin material.name)
            · split at h
              · exact ih _ _ _ h ⟨hin.1, hin.2⟩
              · split at h
                · obtain ⟨⟨t, rest2⟩, _, hcont⟩ := except_bind_ok h
                  exact ih _ _ _ hcont ⟨hin.1, hin.2⟩
                · exact ih _ _ _ h hin
      | endElem nm =>
        simp only [parse_robot_loop] at h
        split at h
        · cases h
          exact hin
        · exact ih _ _ _ h hin
      | emptyElem nm attrs =>
        simp only [parse_robot_loop] at h
        exact ih _ _ _ h hin
      | text c =>
        simp only [parse_robot_loop] at h
        exact ih _ _ _ h hin

theorem parse_top_loop_inv :
    ∀ (fuel : ℕ) (acc : Option Robot) (es : List XmlEvent) (out : Option Robot),
      parse_top_loop fuel acc es = .ok out →
      (∀ r, acc = some r → parse_inv r) →
      ∀ r, out = some r → parse_inv r := by
  intro fuel
  induction fuel with
  | zero => intro acc es out h; simp [parse_top_loop] at h
  | succ n ih =>
    intro acc es out h hacc
    cases es with
    | nil =>
      simp only [parse_top_loop] at h
      cases h
      exact hacc
    | cons e rest =>
      cases e with
      | start nm attrs =>
        simp only [parse_top_loop] at h
        split at h
        · unfold parse_robot at h
          cases hna : get_required_attribute attrs "name" with
          | error er => rw [hna] at h; cases h
          | ok name =>
            rw [hna, except_ok_bind] at h
            obtain ⟨⟨robot, rest2⟩, hpr, hcont⟩ := except_bind_ok h
            have hrob : parse_inv robot :=
              parse_robot_loop_inv n _ _ _ hpr
                ⟨⟨List.nodup_nil, List.nodup_nil, List.nodup_nil⟩, by simp⟩
            refine ih _ _ _ hcont ?_
            intro r2 hr2
            cases hr2
            exact hrob
        · exact ih _ _ _ h hacc
      | endElem nm =>
        simp only [parse_top_loop] at h
        exact ih _ _ _ h hacc
      | emptyElem nm attrs =>
        simp only [parse_top_loop] at h
        exact ih _ _ _ h hacc
      | text c =>
        simp only [parse_top_loop] at h
        exact ih _ _ _ h hacc

theorem parse_string_inv {es : List XmlEvent} {doc : UrdfDocument}
    (h : parse_string es = .ok doc) : parse_inv doc.robot := by
  unfold parse_string at h
  cases ht : parse_top_loop (es.length + 1) none es with
  | error e => rw [ht] at h; cases h
  | ok acc =>
    rw [ht, except_ok_bind] at h
    cases acc with
    | none => cases h
    | some robot =>
      cases h
      exact parse_top_loop_inv _ _ _ _ ht (by simp) robot rfl

/-! ## Claim C6 -/

theorem find_duplicate_names_nil {names : List String} (h : names.Nodup) :
    find_duplicate_names names = [] := by
  rw [find_duplicate_names, List.filter_eq_nil_iff]
  intro n _
  have hc := List.nodup_iff_count_le_one.mp h n
  simp only [gt_iff_lt, decide_eq_true_eq, not_lt]
  omega

theorem check_duplicate_elements_nil {r : Robot} (hnd : robot_nodup r) :
    check_duplicate_elements r = [] := by
  unfold check_duplicate_elements find_duplicates
  rw [find_duplicate_names_nil hnd.1, find_duplicate_names_nil hnd.2.1,
    find_duplicate_names_nil hnd.2.2]
  simp

/-- C6.  The name-keyed collections never hold two entries with the same
key: insertion preserves key distinctness while replacing the value at an
existing key (first two conjuncts), every parsed document satisfies the
invariant for links, joints and materials (third conjunct), and
consequently the duplicate-elements lint check returns no issue on any
document satisfying the invariant — it can never fire (fourth
conjunct). -/
theorem c6_duplicate_check_cannot_fire :
    (∀ (α : Type) (m : IMap α) (k : String) (v : α),
      keys_nodup m → keys_nodup (insertIM m k v)) ∧
    (∀ (α : Type) (m : IMap α) (k : String) (v : α),
      lookupIM (insertIM m k v) k = some v) ∧
    (∀ (es : List XmlEvent) (doc : UrdfDocument),
      parse_string es = .ok doc → robot_nodup doc.robot) ∧
    (∀ r : Robot, robot_nodup r → check_duplicate_elements r = []) :=
  ⟨fun _ _ k v h => keys_nodup_insertIM k v h,
   fun _ m k v => lookupIM_insertIM_self k v m,
   fun _ _ h => (parse_string_inv h).1,
   fun _ h => check_duplicate_elements_nil h⟩

/-- C6 witness: the single-link robot has distinct keys and its duplicate
check is empty. -/
theorem c6_witness : check_duplicate_elements single_link_robot = [] :=
  c6_duplicate_check_cannot_fire.2.2.2 single_link_robot (by decide)

/-! ## Claim C10 -/

theorem used_material_names_nil {r : Robot}
    (h : ∀ p ∈ r.links, link_contents_ok p.2) : used_material_names r = [] := by
  rw [List.eq_nil_iff_forall_not_mem]
  intro x hx
  simp only [used_material_names, List.mem_flatMap, List.mem_filterMap] at hx
  obtain ⟨p, hp, v, hv, hm⟩ := hx
  rw [((h p hp).1 v hv).2.2] at hm
  cases hm

theorem check_unused_materials_all {r : Robot}
    (h : used_material_names r = []) :
    check_unused_materials r =
      (IMap.keysOf r.materials).map unused_material_issue := by
  unfold check_unused_materials
  rw [h]
  simp

/-- C10.  In every parsed document the sub-element contents are skipped,
not parsed: every visual has no geometry and no material reference, every
collision has no geometry, and every inertial block is the fixed default
(mass 1, no origin, no inertia).  Consequently no parsed visual references
a material, so the unused-materials check reports every single material of
a parsed document as an Info/Style issue. -/
theorem c10_parsed_subelements_empty :
    ∀ (es : List XmlEvent) (doc : UrdfDocument), parse_string es = .ok doc →
      (∀ p ∈ doc.robot.links,
        (∀ v ∈ p.2.visual, v.geometry = none ∧ v.material = none) ∧
        (∀ c ∈ p.2.collision, c.geometry = none) ∧
        (∀ i, p.2.inertial = some i →
          i = { mass := .finite 1, origin := none, inertia := none })) ∧
      check_unused_materials doc.robot =
        (IMap.keysOf doc.robot.materials).map unused_material_issue := by
  intro es doc h
  have hinv := parse_string_inv h
  refine ⟨?_, check_unused_materials_all (used_material_names_nil hinv.2)⟩
  intro p hp
  have hok := hinv.2 p hp
  exact ⟨fun v hv => ⟨(hok.1 v hv).2.1, (hok.1 v hv).2.2⟩,
    fun c hc => (hok.2.1 c hc).2, hok.2.2⟩

/-- C10 witness: the parsed one-material document reports its material
`red` as unused. -/
theorem c10_witness :
    check_unused_materials material_doc.robot =
      (IMap.keysOf material_doc.robot.materials).map unused_material_issue :=
  (c10_parsed_subelements_empty material_events material_doc (by decide)).2

end Urdf
